import Mathlib

/-!
# pocketsmith-frollo: the transaction synchronisation steps of `main`

A shallow embedding of the per-account body of `main` (src/main.go): the
window-fetch loop, the account-resolution step, the importer loop and the
balance reconciliation step, over the data types of src/frollo/frollo.go.

The two remote services are not part of the repository.  Every call to them
is a function of an explicit world state that returns the call's result and
the next world state, and every call made is recorded, with its result, in a
trace of events.  A Go `panic` is an explicit exit.
-/

namespace PocketsmithFrollo

/-! ## Values -/

/-- A float64 value as far as `main` uses it: it is compared with `<` and handed
on unchanged, never computed with.  Finite values are rationals; the comparison
is the IEEE one (every comparison with NaN is false). -/
inductive Float64 where
  | nan
  | negInf
  | fin (q : ℚ)
  | posInf
  deriving DecidableEq

/-- The Go operator `<` on float64. -/
def Float64.lt : Float64 → Float64 → Bool
  | .nan, _ => false
  | _, .nan => false
  | .posInf, _ => false
  | _, .negInf => false
  | .negInf, _ => true
  | _, .posInf => true
  | .fin a, .fin b => decide (a < b)

/-- The Go operator `<=` on float64. -/
def Float64.le : Float64 → Float64 → Bool
  | .nan, _ => false
  | _, .nan => false
  | .negInf, _ => true
  | _, .posInf => true
  | .posInf, _ => false
  | _, .negInf => false
  | .fin a, .fin b => decide (a ≤ b)

/-- A `time.Time`, as a calendar date and the time of day (nanoseconds since
midnight); locations are not modelled. -/
structure Time where
  year : Int
  month : Nat
  day : Nat
  nsec : Nat
  deriving DecidableEq

/-- Leap years of the Gregorian calendar. -/
def isLeap (year : Int) : Bool :=
  year % 4 = 0 && (year % 100 ≠ 0 || year % 400 = 0)

/-- Number of days of a month (1..12) of a year. -/
def daysIn (month : Nat) (year : Int) : Nat :=
  if month = 2 then (if isLeap year then 29 else 28)
  else if month = 4 ∨ month = 6 ∨ month = 9 ∨ month = 11 then 30
  else 31

/-- The method `Time.AddDate(years, months, 0)`: both call sites in `main` pass
0 days.  Go adds to the calendar fields and normalises: the month overflows
into the year, then a day past the end of the month overflows into the next
month.  The time of day is kept. -/
def Time.AddDate (t : Time) (years months : Int) : Time :=
  let m : Int := (t.month : Int) - 1 + months
  let y : Int := t.year + years + m / 12
  let mo : Nat := (m % 12).toNat + 1
  if t.day ≤ daysIn mo y then
    { year := y, month := mo, day := t.day, nsec := t.nsec }
  else
    { year := y, month := mo + 1, day := t.day - daysIn mo y, nsec := t.nsec }

/-- The function `strings.Contains` on the characters of the two strings. -/
def containsChars : List Char → List Char → Bool
  | _, [] => true
  | [], _ :: _ => false
  | c :: s, sub => (sub.isPrefixOf (c :: s)) || containsChars s sub

/-- The function `strings.Contains`. -/
def stringsContains (s substr : String) : Bool :=
  containsChars s.data substr.data

/-- The functions of the Go standard library whose results `main` depends on and
which are not modelled here: they are parameters of every step.
`timeParse s` is `time.Parse("2006-01-02", s)`, `ParseFloat s` is
`strconv.ParseFloat(s, 64)` (`none` when the call returns an error), and
`ToLower` is `strings.ToLower`. -/
structure Stdlib where
  timeParse : String → Option Time
  ParseFloat : String → Option Float64
  ToLower : String → String

/-! ## The source service: src/frollo/frollo.go

Only the fields `main` reads are kept.  Pointer fields hold the decoded object. -/

structure Provider where
  ID : Int
  Name : String
  deriving DecidableEq

structure AccountAttributes where
  AccountType : String
  deriving DecidableEq

structure Balance where
  Amount : String
  Currency : String
  deriving DecidableEq

structure FrolloAccount where
  ID : Int
  Provider : Provider
  AccountName : String
  AccountStatus : String
  AccountAttributes : AccountAttributes
  PrimaryBalance : Balance
  CurrentBalance : Balance
  deriving DecidableEq

structure Description where
  Original : String
  Simple : String
  deriving DecidableEq

structure FrolloTransaction where
  ID : Int
  TransactionDate : String
  Amount : Balance
  Description : Description
  Reference : String
  Type_ : String
  deriving DecidableEq

/-! ## The destination service: the client library `pocketsmith-go`

The library is outside the repository; these are the fields and calls `main`
uses. -/

/-- An error value; `ErrNotFound` is the sentinel `pocketsmith.ErrNotFound`. -/
inductive Error where
  | ErrNotFound
  | other (msg : String)
  deriving DecidableEq

/-- A Go result pair `(value, err)`: `ok v` when `err == nil`. -/
inductive Result (α : Type) where
  | ok (v : α)
  | err (e : Error)
  deriving DecidableEq

structure Institution where
  ID : Int
  Title : String
  deriving DecidableEq

structure TransactionAccount where
  ID : Int
  Name : String
  Institution : Institution
  deriving DecidableEq

structure Account where
  ID : Int
  CurrentBalance : Float64
  PrimaryTransactionAccount : TransactionAccount
  deriving DecidableEq

/-- The record `pocketsmith.Transaction` as `main` builds it. -/
structure Transaction where
  Payee : String
  Amount : Float64
  Date : String
  IsTransfer : Bool
  Memo : String
  deriving DecidableEq

/-- Modelled from the spec: the constant `pocketsmith.AccountTypeBank` is declared
in the client library, not in the repository; section 4.4 gives the fixed kind
"bank". -/
def AccountTypeBank : String := "bank"

/-- The account and institution calls of the destination client, over a world
state `σ`. -/
structure AccountClient (σ : Type) where
  FindAccountByName : σ → Int → String → Result Account × σ
  FindInstitutionByName : σ → Int → String → Result Institution × σ
  CreateInstitution : σ → Int → String → String → Result Institution × σ
  CreateAccount : σ → Int → Int → String → String → String → Result Account × σ
  UpdateTransactionAccount : σ → Int → Int → Float64 → String → Result TransactionAccount × σ

/-- The transaction calls of the destination client, over a world state `σ`. -/
structure TransactionClient (σ : Type) where
  SearchTransactionsByMemo : σ → Int → Time → String → Result (List Transaction) × σ
  AddTransaction : σ → Int → Transaction → Result Transaction × σ

/-- A call made to the destination service, with its arguments and its result. -/
inductive Event where
  | findAccount (userID : Int) (name : String) (res : Result Account)
  | findInstitution (userID : Int) (name : String) (res : Result Institution)
  | createInstitution (userID : Int) (name currency : String) (res : Result Institution)
  | createAccount (userID institutionID : Int) (name currency kind : String)
      (res : Result Account)
  | search (accountID : Int) (date : Time) (memo : String) (res : Result (List Transaction))
  | add (accountID : Int) (tx : Transaction) (res : Result Transaction)
  | update (accountID institutionID : Int) (balance : Float64) (date : String)
      (res : Result TransactionAccount)
  deriving DecidableEq

/-- Is the event an `AddTransaction` call? -/
def Event.isAdd : Event → Bool
  | .add _ _ _ => true
  | _ => false

/-- Is the event a `SearchTransactionsByMemo` call? -/
def Event.isSearch : Event → Bool
  | .search _ _ _ _ => true
  | _ => false

/-- Is the event a duplicate probe that returned a non-empty result? -/
def Event.isFound : Event → Bool
  | .search _ _ _ (.ok l) => decide (l.length > 0)
  | _ => false

/-- Is the event a duplicate probe that returned an empty result? -/
def Event.isNotFound : Event → Bool
  | .search _ _ _ (.ok l) => decide (l.length = 0)
  | _ => false

/-- The transaction submitted by an `AddTransaction` call. -/
def Event.added : Event → Option Transaction
  | .add _ tx _ => some tx
  | _ => none

/-! ## The window-fetch loop: main.go lines 95-113 -/

/-- How the window-fetch loop ends. -/
inductive FetchExit where
  | done
  | panicked
  deriving DecidableEq

/-- What the window-fetch loop leaves behind: `allTxs`, and the windows it
fetched, in fetch order, each as `(toDate, fromDate)`, the `from_date` and
`to_date` of the request. -/
structure Fetched where
  exit : FetchExit
  allTxs : List FrolloTransaction
  windows : List (Time × Time)
  deriving DecidableEq

/-- The loop `for { ... }` of lines 98-113, from the current `fromDate` and
`allTxs`; `GetTransactions toDate fromDate` is the call of line 102.  The Go
loop has no bound: `none` means the fuel ran out before the loop ended. -/
def fetchLoop (GetTransactions : Time → Time → Result (List FrolloTransaction)) :
    Nat → Time → List FrolloTransaction → Option Fetched
  | 0, _, _ => none
  | fuel + 1, fromDate, allTxs =>
    let toDate := fromDate.AddDate 0 (-12)
    match GetTransactions toDate fromDate with
    | .err _ => some { exit := .panicked, allTxs := allTxs, windows := [(toDate, fromDate)] }
    | .ok txs =>
      if txs.length = 0 then
        some { exit := .done, allTxs := allTxs, windows := [(toDate, fromDate)] }
      else
        match fetchLoop GetTransactions fuel toDate (allTxs ++ txs) with
        | none => none
        | some r => some { r with windows := (toDate, fromDate) :: r.windows }

/-- Lines 96-113: `fromDate := time.Now()`, `allTxs := []`, then the loop. -/
def fetchAll (GetTransactions : Time → Time → Result (List FrolloTransaction))
    (fuel : Nat) (now : Time) : Option Fetched :=
  fetchLoop GetTransactions fuel now []

/-- The `k`-th window end of the loop: `now` moved back `k` times by 12 months. -/
def windowEnd (now : Time) : Nat → Time
  | 0 => now
  | k + 1 => (windowEnd now k).AddDate 0 (-12)

/-- The `k`-th window `(toDate, fromDate)` of the loop. -/
def window (now : Time) (k : Nat) : Time × Time :=
  ((windowEnd now k).AddDate 0 (-12), windowEnd now k)

/-! ## The account-resolution step: main.go lines 120-143 -/

/-- The outcome of a step of `main`: its value, or a panic. -/
inductive Outcome (α : Type) where
  | value (a : α)
  | panicked
  deriving DecidableEq

/-- The result of a step: outcome, next world state, calls made. -/
structure Step (σ α : Type) where
  outcome : Outcome α
  world : σ
  trace : List Event

/-- Lines 120-143: find the destination account by name; when it is not found,
find or create the institution and create the account in it. -/
def resolveAccount {σ : Type} (std : Stdlib) (ps : AccountClient σ) (userID : Int)
    (acc : FrolloAccount) (w : σ) : Step σ Account :=
  match ps.FindAccountByName w userID acc.AccountName with
  | (.ok foundAccount, w1) =>
    ⟨.value foundAccount, w1, [.findAccount userID acc.AccountName (.ok foundAccount)]⟩
  | (.err e, w1) =>
    let t1 := [Event.findAccount userID acc.AccountName (.err e)]
    if e = .ErrNotFound then
      let currency := std.ToLower acc.PrimaryBalance.Currency
      let createIn (foundInstitution : Institution) (w2 : σ) (t2 : List Event) :
          Step σ Account :=
        match ps.CreateAccount w2 userID foundInstitution.ID acc.AccountName currency
            AccountTypeBank with
        | (.ok foundAccount, w3) =>
          ⟨.value foundAccount, w3, t2 ++ [.createAccount userID foundInstitution.ID
            acc.AccountName currency AccountTypeBank (.ok foundAccount)]⟩
        | (.err e3, w3) =>
          ⟨.panicked, w3, t2 ++ [.createAccount userID foundInstitution.ID
            acc.AccountName currency AccountTypeBank (.err e3)]⟩
      match ps.FindInstitutionByName w1 userID acc.Provider.Name with
      | (.ok foundInstitution, w2) =>
        createIn foundInstitution w2
          (t1 ++ [.findInstitution userID acc.Provider.Name (.ok foundInstitution)])
      | (.err e2, w2) =>
        let t2 := t1 ++ [Event.findInstitution userID acc.Provider.Name (.err e2)]
        if e2 = .ErrNotFound then
          match ps.CreateInstitution w2 userID acc.Provider.Name currency with
          | (.ok foundInstitution, w3) =>
            createIn foundInstitution w3
              (t2 ++ [.createInstitution userID acc.Provider.Name currency
                (.ok foundInstitution)])
          | (.err e3, w3) =>
            ⟨.panicked, w3, t2 ++ [.createInstitution userID acc.Provider.Name currency
              (.err e3)]⟩
        else ⟨.panicked, w2, t2⟩
    else ⟨.panicked, w1, t1⟩

/-- The `CreateInstitution` calls of a trace. -/
def institutionCreates (t : List Event) : List Event :=
  t.filter fun e => match e with
    | .createInstitution _ _ _ _ => true
    | _ => false

/-- The `CreateAccount` calls of a trace. -/
def accountCreates (t : List Event) : List Event :=
  t.filter fun e => match e with
    | .createAccount _ _ _ _ _ _ => true
    | _ => false

/-! ## The importer loop: main.go lines 154-200 -/

/-- How one pass through the loop body leaves it: on to the next transaction
(`continue`, or the end of the body), `break`, or `panic`. -/
inductive Flow where
  | next
  | brk
  | panic
  deriving DecidableEq

/-- The destination transaction of lines 188-194, from the source transaction
and its parsed amount. -/
def psTx (tx : FrolloTransaction) (amountParsed : Float64) : Transaction :=
  { Payee := tx.Description.Original
    Amount := amountParsed
    Date := tx.TransactionDate
    IsTransfer := stringsContains tx.Type_ "transfer"
    Memo := tx.Reference }

/-- The state of the importer loop after a pass: the counter
`consecutiveAlreadyProcessed`, the world, and the calls made in the pass. -/
structure Pass (σ : Type) where
  flow : Flow
  consecutiveAlreadyProcessed : Nat
  world : σ
  trace : List Event

/-- The body of the loop of lines 155-200 for one transaction `tx`;
`accountID` is `foundAccount.PrimaryTransactionAccount.ID`. -/
def loopBody {σ : Type} (std : Stdlib) (ps : TransactionClient σ) (accountID : Int)
    (consecutiveAlreadyProcessed : Nat) (w : σ) (tx : FrolloTransaction) : Pass σ :=
  if consecutiveAlreadyProcessed > 10 then
    ⟨.brk, consecutiveAlreadyProcessed, w, []⟩
  else
    match std.timeParse tx.TransactionDate with
    | none => ⟨.panic, consecutiveAlreadyProcessed, w, []⟩
    | some txDateParsed =>
      match ps.SearchTransactionsByMemo w accountID txDateParsed tx.Reference with
      | (.err e, w1) =>
        ⟨.next, consecutiveAlreadyProcessed, w1,
          [.search accountID txDateParsed tx.Reference (.err e)]⟩
      | (.ok foundTxs, w1) =>
        let t1 := [Event.search accountID txDateParsed tx.Reference (.ok foundTxs)]
        if foundTxs.length > 0 then
          ⟨.next, consecutiveAlreadyProcessed + 1, w1, t1⟩
        else
          match std.ParseFloat tx.Amount.Amount with
          | none => ⟨.panic, 0, w1, t1⟩
          | some amountParsed =>
            match ps.AddTransaction w1 accountID (psTx tx amountParsed) with
            | (res, w2) =>
              ⟨.next, 0, w2, t1 ++ [.add accountID (psTx tx amountParsed) res]⟩

/-- How the importer loop ends: the list is exhausted, the `break` of line 158,
or a panic. -/
inductive Exit where
  | finished
  | stopped
  | panicked
  deriving DecidableEq

/-- What a run of the importer loop leaves behind. -/
structure Run (σ : Type) where
  exit : Exit
  consecutiveAlreadyProcessed : Nat
  world : σ
  trace : List Event

/-- The loop `for _, tx := range allTxs` of lines 155-200, from a value of the
counter and a world. -/
def importerLoop {σ : Type} (std : Stdlib) (ps : TransactionClient σ) (accountID : Int) :
    List FrolloTransaction → Nat → σ → Run σ
  | [], c, w => ⟨.finished, c, w, []⟩
  | tx :: rest, c, w =>
    match loopBody std ps accountID c w tx with
    | ⟨.next, c1, w1, t1⟩ =>
      let r := importerLoop std ps accountID rest c1 w1
      ⟨r.exit, r.consecutiveAlreadyProcessed, r.world, t1 ++ r.trace⟩
    | ⟨.brk, c1, w1, t1⟩ => ⟨.stopped, c1, w1, t1⟩
    | ⟨.panic, c1, w1, t1⟩ => ⟨.panicked, c1, w1, t1⟩

/-- Lines 154-200: `consecutiveAlreadyProcessed := 0`, then the loop over
`allTxs`. -/
def importTransactions {σ : Type} (std : Stdlib) (ps : TransactionClient σ)
    (accountID : Int) (allTxs : List FrolloTransaction) (w : σ) : Run σ :=
  importerLoop std ps accountID allTxs 0 w

/-- The transactions submitted by the `AddTransaction` calls of a trace. -/
def addedTxs (t : List Event) : List Transaction :=
  t.filterMap Event.added

/-! ## The balance reconciliation step: main.go lines 202-220 -/

/-- Lines 202-220, for the resolved `foundAccount` and the source account `acc`;
`today` is `time.Now().Format("2006-01-02")`.  Every failure here is logged and
ends the step. -/
def reconcileBalance {σ : Type} (std : Stdlib) (ps : AccountClient σ) (userID : Int)
    (acc : FrolloAccount) (foundAccount : Account) (today : String) (w : σ) :
    σ × List Event :=
  match ps.FindAccountByName w userID foundAccount.PrimaryTransactionAccount.Name with
  | (.err e, w1) =>
    (w1, [.findAccount userID foundAccount.PrimaryTransactionAccount.Name (.err e)])
  | (.ok account, w1) =>
    let t1 := [Event.findAccount userID foundAccount.PrimaryTransactionAccount.Name
      (.ok account)]
    match std.ParseFloat acc.CurrentBalance.Amount with
    | none => (w1, t1)
    | some convertedBalance =>
      if account.CurrentBalance.lt convertedBalance then
        match ps.UpdateTransactionAccount w1 foundAccount.PrimaryTransactionAccount.ID
            foundAccount.PrimaryTransactionAccount.Institution.ID convertedBalance today with
        | (res, w2) =>
          (w2, t1 ++ [.update foundAccount.PrimaryTransactionAccount.ID
            foundAccount.PrimaryTransactionAccount.Institution.ID convertedBalance today res])
      else (w1, t1)

/-- The balances pushed by the `UpdateTransactionAccount` calls of a trace. -/
def pushedBalances (t : List Event) : List Float64 :=
  t.filterMap fun e => match e with
    | .update _ _ balance _ _ => some balance
    | _ => none

/-! ## Destination worlds -/

/-- A destination that holds a list of transactions: the probe returns the
stored transactions with exactly the probed date and memo, and an add stores
the transaction and succeeds.  The pairs (date, memo) of the stored
transactions are the set the probe tests membership in. -/
def ledger (std : Stdlib) : TransactionClient (List Transaction) where
  SearchTransactionsByMemo := fun w _ date memo =>
    (.ok (w.filter fun t => decide (std.timeParse t.Date = some date ∧ t.Memo = memo)), w)
  AddTransaction := fun w _ tx => (.ok tx, w ++ [tx])

/-- A destination that answers from a script: the `k`-th probe made returns
`searchResults k` and the `k`-th add made returns `addResults k`.  The world is
the number of probes and of adds made so far. -/
def scripted (searchResults : Nat → Result (List Transaction))
    (addResults : Nat → Result Transaction) : TransactionClient (Nat × Nat) where
  SearchTransactionsByMemo := fun w _ _ _ => (searchResults w.1, (w.1 + 1, w.2))
  AddTransaction := fun w _ _ => (addResults w.2, (w.1, w.2 + 1))

/-- A model of `time.Parse("2006-01-02", s)` for the examples: four digits, two
digits and two digits separated by `-`, a month in 1..12 and a day of that
month. -/
def parseDate (s : String) : Option Time :=
  let digit (c : Char) : Option Nat :=
    if 48 ≤ c.toNat ∧ c.toNat ≤ 57 then some (c.toNat - 48) else none
  match s.data with
  | [y1, y2, y3, y4, d1, m1, m2, d2, a1, a2] =>
    if d1 = '-' ∧ d2 = '-' then
      match digit y1, digit y2, digit y3, digit y4, digit m1, digit m2, digit a1, digit a2 with
      | some p, some q, some r, some s, some t, some u, some v, some x =>
        let year : Nat := 1000 * p + 100 * q + 10 * r + s
        let month := 10 * t + u
        let day := 10 * v + x
        if 1 ≤ month ∧ month ≤ 12 ∧ 1 ≤ day ∧ day ≤ daysIn month year then
          some { year := year, month := month, day := day, nsec := 0 }
        else none
      | _, _, _, _, _, _, _, _ => none
    else none
  | _ => none

/-- Decimal digits read as a number, continuing from `n`. -/
def digitsValue : List Char → Nat → Option Nat
  | [], n => some n
  | c :: cs, n =>
    if 48 ≤ c.toNat ∧ c.toNat ≤ 57 then digitsValue cs (10 * n + (c.toNat - 48)) else none

/-- A model of `strconv.ParseFloat(s, 64)` for the examples, on whole numbers of
at most 15 digits with an optional minus sign, which float64 holds exactly;
every other text is refused. -/
def parseWhole (s : String) : Option Float64 :=
  match s.data with
  | [] => none
  | '-' :: cs =>
    if cs.length = 0 ∨ cs.length > 15 then none
    else (digitsValue cs 0).map fun n => Float64.fin (-(n : ℚ))
  | cs =>
    if cs.length > 15 then none
    else (digitsValue cs 0).map fun n => Float64.fin (n : ℚ)

/-- A model of `strings.ToLower` for the examples: the letters A to Z are
lowered, every other character is kept. -/
def lowerAscii (s : String) : String :=
  String.mk (s.data.map Char.toLower)

/-- The standard-library functions used in the examples. -/
def exampleStd : Stdlib :=
  { timeParse := parseDate, ParseFloat := parseWhole, ToLower := lowerAscii }

/-- The counter `consecutiveAlreadyProcessed` after the calls of a trace, from its
value before them: a found probe adds one, a not-found probe resets it, every
other call leaves it. -/
def countAfter (c : Nat) : List Event → Nat
  | [] => c
  | e :: t => countAfter (if e.isFound then c + 1 else if e.isNotFound then 0 else c) t

/-! ## Data of the examples -/

/-- A destination for the examples, fixed by the results of its five calls; the
world is not used. -/
def fixedClient (findAccount : Result Account) (findInstitution : Result Institution)
    (createInstitution : Result Institution) (createAccount : Result Account)
    (update : Result TransactionAccount) : AccountClient Unit where
  FindAccountByName := fun w _ _ => (findAccount, w)
  FindInstitutionByName := fun w _ _ => (findInstitution, w)
  CreateInstitution := fun w _ _ _ => (createInstitution, w)
  CreateAccount := fun w _ _ _ _ _ => (createAccount, w)
  UpdateTransactionAccount := fun w _ _ _ _ => (update, w)

/-- The source account "Everyday": active, a bank account, balance 500 AUD. -/
def everyday : FrolloAccount :=
  { ID := 1657651, Provider := ⟨3, "Bank"⟩, AccountName := "Everyday",
    AccountStatus := "active", AccountAttributes := ⟨"bank_account"⟩,
    PrimaryBalance := ⟨"500", "AUD"⟩, CurrentBalance := ⟨"500", "AUD"⟩ }

/-- A destination institution. -/
def bankInstitution : Institution := ⟨11, "Bank"⟩

/-- The destination account "Everyday" with a given balance. -/
def everydayAccount (balance : ℚ) : Account :=
  { ID := 21, CurrentBalance := .fin balance,
    PrimaryTransactionAccount := ⟨22, "Everyday", bankInstitution⟩ }

/-- A source transaction of amount 5 AUD. -/
def sourceTx (date reference type : String) : FrolloTransaction :=
  { ID := 0, TransactionDate := date, Amount := ⟨"5", "AUD"⟩,
    Description := ⟨"shop", "shop"⟩, Reference := reference, Type_ := type }

/-- Eleven source transactions, newest first. -/
def elevenTxs : List FrolloTransaction :=
  [sourceTx "2025-01-12" "r12" "purchase", sourceTx "2025-01-11" "r11" "purchase",
   sourceTx "2025-01-10" "r10" "purchase", sourceTx "2025-01-09" "r09" "purchase",
   sourceTx "2025-01-08" "r08" "purchase", sourceTx "2025-01-07" "r07" "purchase",
   sourceTx "2025-01-06" "r06" "purchase", sourceTx "2025-01-05" "r05" "purchase",
   sourceTx "2025-01-04" "r04" "purchase", sourceTx "2025-01-03" "r03" "purchase",
   sourceTx "2025-01-02" "r02" "purchase"]

/-- A twelfth source transaction, older than the eleven. -/
def olderTx : FrolloTransaction := sourceTx "2025-01-01" "r01" "purchase"

/-- A destination that already holds the eleven transactions. -/
def elevenStored : List Transaction := elevenTxs.map fun tx => psTx tx (.fin 5)

/-- Two source transactions, the newer a transfer. -/
def twoTxs : List FrolloTransaction :=
  [sourceTx "2025-01-12" "r12" "internal_transfer", sourceTx "2025-01-11" "r11" "purchase"]

/-- A destination that already holds the two transactions. -/
def twoStored : List Transaction := twoTxs.map fun tx => psTx tx (.fin 5)

/-! ## Specification-side definitions -/

/-- The call of an event without the result of an add: what was asked of the
destination, and what a probe answered. -/
def Event.attempt : Event → Event
  | .add accountID tx _ => .add accountID tx (.ok tx)
  | e => e

/-- The destination list `w` holds a transaction with the date and the memo
(reference) of the source transaction `tx`: the pair the probe looks up. -/
def holds (std : Stdlib) (w : List Transaction) (tx : FrolloTransaction) : Prop :=
  ∃ t ∈ w, std.timeParse t.Date = std.timeParse tx.TransactionDate ∧ t.Memo = tx.Reference

/-- A source for the examples: one transaction in the year before 2025-01-15,
nothing earlier. -/
def oneYearSource (toDate fromDate : Time) : Result (List FrolloTransaction) :=
  if fromDate = ⟨2025, 1, 15, 0⟩ ∧ toDate = ⟨2024, 1, 15, 0⟩ then
    .ok [sourceTx "2024-06-01" "r" "purchase"]
  else .ok []

/-- Did the `k`-th probe of the script report its transaction as existing? -/
def scriptFound (searchResults : Nat → Result (List Transaction)) (k : Nat) : Bool :=
  match searchResults k with
  | .ok l => decide (l.length > 0)
  | .err _ => false

/-- From the claim's words: the transaction at position `i` of the list is
preceded by a run of 11 consecutive found transactions, the positions `j` to
`j + 10` for some `j` with `j + 11 ≤ i`. -/
def precededByRun (found : Nat → Bool) (i : Nat) : Bool :=
  (List.range i).any fun j => decide (j + 11 ≤ i) && (List.range 11).all fun k => found (j + k)

/-- From the claim's words: the transactions that are to receive an add, in list
order, from position `i` on: those reported not found and not preceded by a run
of 11 consecutive found transactions, each as the destination transaction
built from it. -/
def expectedAddsFrom (std : Stdlib) (found : Nat → Bool) (i : Nat)
    (txs : List FrolloTransaction) : List Transaction :=
  ((txs.enumFrom i).filter fun p => !found p.1 && !precededByRun found p.1).filterMap
    fun p => (std.ParseFloat p.2.Amount.Amount).map (psTx p.2)

/-- From the claim's words: the transactions of the list that are to receive an
add. -/
def expectedAdds (std : Stdlib) (found : Nat → Bool) (txs : List FrolloTransaction) :
    List Transaction :=
  expectedAddsFrom std found 0 txs

/-- The state of the loop in front of position `i` with counter `c`, for probe
outcomes `found`: the `c` transactions before `i` were found, the one before
them was not, and no run of 11 found transactions lies before `i` while
`c ≤ 10`. -/
def CounterInv (found : Nat → Bool) (i c : Nat) : Prop :=
  c ≤ i
    ∧ (∀ k, i - c ≤ k → k < i → found k = true)
    ∧ (c < i → found (i - c - 1) = false)
    ∧ (c ≤ 10 → ∀ j, j + 11 ≤ i → ∃ k, k < 11 ∧ found (j + k) = false)

/-- A source without failures for the examples: one transaction in the year
before 2025-01-15, nothing earlier. -/
def oneYearList (toDate fromDate : Time) : List FrolloTransaction :=
  if fromDate = ⟨2025, 1, 15, 0⟩ ∧ toDate = ⟨2024, 1, 15, 0⟩ then
    [sourceTx "2024-06-01" "r" "purchase"]
  else []

/-- A script for the examples: the first ten probes find their transaction, every
later probe finds nothing. -/
def tenFound (k : Nat) : Result (List Transaction) :=
  if k < 10 then .ok [psTx olderTx (.fin 5)] else .ok []

/-- A script for the examples: the first probe fails, the second finds nothing. -/
def firstProbeFails (k : Nat) : Result (List Transaction) :=
  if k = 0 then .err (.other "timeout") else .ok []

/-- The same destination, which also keeps every call it receives, with its
arguments and its result, in the order received. -/
def recording {σ : Type} (ps : TransactionClient σ) : TransactionClient (σ × List Event) where
  SearchTransactionsByMemo := fun w accountID date memo =>
    ((ps.SearchTransactionsByMemo w.1 accountID date memo).1,
      ((ps.SearchTransactionsByMemo w.1 accountID date memo).2,
        w.2 ++ [.search accountID date memo
          (ps.SearchTransactionsByMemo w.1 accountID date memo).1]))
  AddTransaction := fun w accountID tx =>
    ((ps.AddTransaction w.1 accountID tx).1,
      ((ps.AddTransaction w.1 accountID tx).2,
        w.2 ++ [.add accountID tx (ps.AddTransaction w.1 accountID tx).1]))

/-- The same destination, which also keeps every call it receives, with its
arguments and its result, in the order received. -/
def recordingAccounts {σ : Type} (ps : AccountClient σ) : AccountClient (σ × List Event) where
  FindAccountByName := fun w userID name =>
    ((ps.FindAccountByName w.1 userID name).1,
      ((ps.FindAccountByName w.1 userID name).2,
        w.2 ++ [.findAccount userID name (ps.FindAccountByName w.1 userID name).1]))
  FindInstitutionByName := fun w userID name =>
    ((ps.FindInstitutionByName w.1 userID name).1,
      ((ps.FindInstitutionByName w.1 userID name).2,
        w.2 ++ [.findInstitution userID name (ps.FindInstitutionByName w.1 userID name).1]))
  CreateInstitution := fun w userID name currency =>
    ((ps.CreateInstitution w.1 userID name currency).1,
      ((ps.CreateInstitution w.1 userID name currency).2,
        w.2 ++ [.createInstitution userID name currency
          (ps.CreateInstitution w.1 userID name currency).1]))
  CreateAccount := fun w userID institutionID name currency kind =>
    ((ps.CreateAccount w.1 userID institutionID name currency kind).1,
      ((ps.CreateAccount w.1 userID institutionID name currency kind).2,
        w.2 ++ [.createAccount userID institutionID name currency kind
          (ps.CreateAccount w.1 userID institutionID name currency kind).1]))
  UpdateTransactionAccount := fun w accountID institutionID balance date =>
    ((ps.UpdateTransactionAccount w.1 accountID institutionID balance date).1,
      ((ps.UpdateTransactionAccount w.1 accountID institutionID balance date).2,
        w.2 ++ [.update accountID institutionID balance date
          (ps.UpdateTransactionAccount w.1 accountID institutionID balance date).1]))

/-- The `AddTransaction` calls of a list of calls: account and transaction. -/
def addCalls (t : List Event) : List (Int × Transaction) :=
  t.filterMap fun e => match e with
    | .add accountID tx _ => some (accountID, tx)
    | _ => none

/-- The `UpdateTransactionAccount` calls of a list of calls: account, institution,
balance and date. -/
def updateCalls (t : List Event) : List (Int × Int × Float64 × String) :=
  t.filterMap fun e => match e with
    | .update accountID institutionID balance date _ =>
      some (accountID, institutionID, balance, date)
    | _ => none

/-! ## Theorems -/

theorem countAfter_append (c : Nat) (s t : List Event) :
    countAfter c (s ++ t) = countAfter (countAfter c s) t := by
  induction s generalizing c with
  | nil => rfl
  | cons e s ih => simp [countAfter, ih]

theorem countAfter_ge (c : Nat) (t : List Event) (h : ∀ e ∈ t, e.isNotFound = false) :
    c + (t.filter Event.isFound).length ≤ countAfter c t := by
  induction t generalizing c with
  | nil => simp [countAfter]
  | cons e t ih =>
    have he : e.isNotFound = false := h e (List.mem_cons_self _ _)
    have ht : ∀ x ∈ t, x.isNotFound = false := fun x hx => h x (List.mem_cons_of_mem _ hx)
    by_cases hf : e.isFound = true
    · have := ih (c + 1) ht
      simp [countAfter, hf, List.filter_cons]
      omega
    · have := ih c ht
      simp [countAfter, hf, he, List.filter_cons]
      omega

theorem loopBody_counter {σ : Type} (std : Stdlib) (ps : TransactionClient σ) (accountID : Int)
    (c : Nat) (w : σ) (tx : FrolloTransaction) :
    (loopBody std ps accountID c w tx).consecutiveAlreadyProcessed
      = countAfter c (loopBody std ps accountID c w tx).trace := by
  unfold loopBody
  split
  · rfl
  · split
    · rfl
    · split
      · simp [countAfter, Event.isFound, Event.isNotFound]
      · rename_i foundTxs w1 _
        by_cases hl : foundTxs.length > 0
        · simp [hl, countAfter, Event.isFound]
        · have hnil : foundTxs = [] := by
            cases foundTxs with
            | nil => rfl
            | cons a l => simp at hl
          subst hnil
          simp only [List.length_nil, gt_iff_lt, lt_self_iff_false, if_false]
          split
          · simp [countAfter, Event.isFound, Event.isNotFound]
          · simp [countAfter, Event.isFound, Event.isNotFound]

theorem importerLoop_counter {σ : Type} (std : Stdlib) (ps : TransactionClient σ)
    (accountID : Int) (txs : List FrolloTransaction) (c : Nat) (w : σ) :
    (importerLoop std ps accountID txs c w).consecutiveAlreadyProcessed
      = countAfter c (importerLoop std ps accountID txs c w).trace := by
  induction txs generalizing c w with
  | nil => rfl
  | cons tx rest ih =>
    have hb := loopBody_counter std ps accountID c w tx
    unfold importerLoop
    rcases hp : loopBody std ps accountID c w tx with ⟨f, c1, w1, t1⟩
    rw [hp] at hb
    simp only at hb
    cases f
    · simp only [countAfter_append, ← hb]
      exact ih c1 w1
    · exact hb
    · exact hb

theorem importerLoop_append {σ : Type} (std : Stdlib) (ps : TransactionClient σ)
    (accountID : Int) (A B : List FrolloTransaction) (c : Nat) (w : σ) :
    importerLoop std ps accountID (A ++ B) c w
      = match (importerLoop std ps accountID A c w).exit with
        | .finished =>
          let r := importerLoop std ps accountID A c w
          let s := importerLoop std ps accountID B r.consecutiveAlreadyProcessed r.world
          ⟨s.exit, s.consecutiveAlreadyProcessed, s.world, r.trace ++ s.trace⟩
        | _ => importerLoop std ps accountID A c w := by
  induction A generalizing c w with
  | nil => simp [importerLoop]
  | cons tx rest ih =>
    simp only [List.cons_append, importerLoop]
    rcases hp : loopBody std ps accountID c w tx with ⟨f, c1, w1, t1⟩
    cases f
    · have h := ih c1 w1
      cases hx : (importerLoop std ps accountID rest c1 w1).exit <;>
        rw [hx] at h <;> simp [h, hx]
    · rfl
    · rfl

theorem importerLoop_over {σ : Type} (std : Stdlib) (ps : TransactionClient σ)
    (accountID : Int) (txs : List FrolloTransaction) (c : Nat) (w : σ) (h : 10 < c) :
    (importerLoop std ps accountID txs c w).trace = []
      ∧ (importerLoop std ps accountID txs c w).world = w
      ∧ (importerLoop std ps accountID txs c w).consecutiveAlreadyProcessed = c := by
  cases txs with
  | nil => simp [importerLoop]
  | cons tx rest => simp [importerLoop, loopBody, h]

/-- C1: once the trace of the importer loop over the transactions `A` ends with
calls (`mid`) among which at least 11 probes reported an existing transaction
and no probe reported not-found, the loop makes no further call for any later
transaction: over `A ++ B` it leaves the same trace of probes and adds, and the
same destination, as over `A`, whatever the destination answers. -/
theorem importer_stops_after_eleven_found {σ : Type} (std : Stdlib) (ps : TransactionClient σ)
    (accountID : Int) (A B : List FrolloTransaction) (w : σ) (pre mid : List Event)
    (htrace : (importTransactions std ps accountID A w).trace = pre ++ mid)
    (hnone : ∀ e ∈ mid, e.isNotFound = false)
    (hrun : 11 ≤ (mid.filter Event.isFound).length) :
    (importTransactions std ps accountID (A ++ B) w).trace
        = (importTransactions std ps accountID A w).trace
      ∧ (importTransactions std ps accountID (A ++ B) w).world
        = (importTransactions std ps accountID A w).world := by
  unfold importTransactions at *
  have hc := importerLoop_counter std ps accountID A 0 w
  rw [htrace, countAfter_append] at hc
  have hge := countAfter_ge (countAfter 0 pre) mid hnone
  rw [importerLoop_append]
  cases hx : (importerLoop std ps accountID A 0 w).exit
  · have ho := importerLoop_over std ps accountID B
      (importerLoop std ps accountID A 0 w).consecutiveAlreadyProcessed
      (importerLoop std ps accountID A 0 w).world (by omega)
    simp [ho.1, ho.2.1]
  · simp
  · simp

theorem containsChars_iff (s sub : List Char) : containsChars s sub = true ↔ sub <:+: s := by
  induction s with
  | nil =>
    cases sub with
    | nil => simp [containsChars]
    | cons a l => simp [containsChars]
  | cons c s ih =>
    cases sub with
    | nil => simp [containsChars]
    | cons a l =>
      rw [containsChars, Bool.or_eq_true, ih, List.isPrefixOf_iff_prefix, List.infix_cons_iff]
      simp

theorem importerLoop_found_invariant {σ : Type} (std : Stdlib) (ps : TransactionClient σ)
    (accountID : Int) (txs : List FrolloTransaction) (c : Nat) (w : σ) (I : σ → Prop)
    (hw : I w)
    (hfound : ∀ w0, I w0 → ∀ tx ∈ txs, ∃ d l w1,
      std.timeParse tx.TransactionDate = some d
        ∧ ps.SearchTransactionsByMemo w0 accountID d tx.Reference = (.ok l, w1)
        ∧ 0 < l.length ∧ I w1) :
    (importerLoop std ps accountID txs c w).exit ≠ .panicked
      ∧ addedTxs (importerLoop std ps accountID txs c w).trace = [] := by
  induction txs generalizing c w with
  | nil => simp [importerLoop, addedTxs]
  | cons tx rest ih =>
    obtain ⟨d, l, w1, hd, hs, hl, hw1⟩ := hfound w hw tx (List.mem_cons_self _ _)
    by_cases hc : c > 10
    · simp [importerLoop, loopBody, hc, addedTxs]
    · have hb : loopBody std ps accountID c w tx
          = ⟨.next, c + 1, w1, [.search accountID d tx.Reference (.ok l)]⟩ := by
        simp [loopBody, hc, hd, hs, hl]
      have h := ih (c + 1) w1 hw1
        (fun w0 h0 t ht => hfound w0 h0 t (List.mem_cons_of_mem _ ht))
      unfold importerLoop
      rw [hb]
      refine ⟨h.1, ?_⟩
      simp only [addedTxs, List.filterMap_append] at h ⊢
      rw [h.2]
      simp [Event.added]

/-- C2: when every date of the list parses and the duplicate probe returns a
non-empty result for every transaction of the list, in every destination state
the run can reach (`I`), the importer loop does not panic and issues zero
`AddTransaction` calls. -/
theorem all_found_no_add {σ : Type} (std : Stdlib) (ps : TransactionClient σ)
    (accountID : Int) (allTxs : List FrolloTransaction) (w : σ) (I : σ → Prop) (hw : I w)
    (hfound : ∀ w0, I w0 → ∀ tx ∈ allTxs, ∃ d l w1,
      std.timeParse tx.TransactionDate = some d
        ∧ ps.SearchTransactionsByMemo w0 accountID d tx.Reference = (.ok l, w1)
        ∧ 0 < l.length ∧ I w1) :
    (importTransactions std ps accountID allTxs w).exit ≠ .panicked
      ∧ addedTxs (importTransactions std ps accountID allTxs w).trace = [] :=
  importerLoop_found_invariant std ps accountID allTxs 0 w I hw hfound

theorem Float64.not_lt_of_le (s d : Float64) (h : s.le d = true) : d.lt s = false := by
  cases s <;> cases d <;> simp_all [Float64.le, Float64.lt]

/-- C4: with destination balance `d` (the looked-up account's `CurrentBalance`)
and parsed source balance `s`: when `d < s` the reconciliation step makes
exactly the lookup and one `UpdateTransactionAccount` call, for the resolved
transaction account and its institution, with balance exactly `s` and today's
date, and leaves the destination as that call leaves it; when not `d < s` it
makes the lookup only and leaves the destination as the lookup left it;
`s <= d` excludes `d < s`.  A destination that keeps the calls it receives
receives one update call with `s` when `d < s` and none otherwise, so every
pushed balance is above the destination balance. -/
theorem reconcile_pushes_iff_lt {σ : Type} (std : Stdlib) (ps : AccountClient σ) (userID : Int)
    (acc : FrolloAccount) (foundAccount : Account) (today : String) (w w1 : σ)
    (account : Account) (s : Float64)
    (hfind : ps.FindAccountByName w userID foundAccount.PrimaryTransactionAccount.Name
      = (.ok account, w1))
    (hparse : std.ParseFloat acc.CurrentBalance.Amount = some s) :
    (account.CurrentBalance.lt s = true →
        reconcileBalance std ps userID acc foundAccount today w
          = ((ps.UpdateTransactionAccount w1 foundAccount.PrimaryTransactionAccount.ID
                foundAccount.PrimaryTransactionAccount.Institution.ID s today).2,
              [.findAccount userID foundAccount.PrimaryTransactionAccount.Name (.ok account),
               .update foundAccount.PrimaryTransactionAccount.ID
                foundAccount.PrimaryTransactionAccount.Institution.ID s today
                (ps.UpdateTransactionAccount w1 foundAccount.PrimaryTransactionAccount.ID
                  foundAccount.PrimaryTransactionAccount.Institution.ID s today).1]))
      ∧ (account.CurrentBalance.lt s = false →
        reconcileBalance std ps userID acc foundAccount today w
          = (w1, [.findAccount userID foundAccount.PrimaryTransactionAccount.Name
              (.ok account)]))
      ∧ (s.le account.CurrentBalance = true → account.CurrentBalance.lt s = false)
      ∧ updateCalls (reconcileBalance std (recordingAccounts ps) userID acc foundAccount today
          (w, [])).1.2
        = (if account.CurrentBalance.lt s then
            [(foundAccount.PrimaryTransactionAccount.ID,
              foundAccount.PrimaryTransactionAccount.Institution.ID, s, today)]
          else [])
      ∧ pushedBalances (reconcileBalance std ps userID acc foundAccount today w).2
        = (if account.CurrentBalance.lt s then [s] else [])
      ∧ ((pushedBalances (reconcileBalance std ps userID acc foundAccount today w).2).length = 1
          ↔ account.CurrentBalance.lt s = true)
      ∧ (s.le account.CurrentBalance = true →
          pushedBalances (reconcileBalance std ps userID acc foundAccount today w).2 = [])
      ∧ (∀ p ∈ pushedBalances (reconcileBalance std ps userID acc foundAccount today w).2,
          account.CurrentBalance.lt p = true) := by
  have hyes : account.CurrentBalance.lt s = true →
        reconcileBalance std ps userID acc foundAccount today w
          = ((ps.UpdateTransactionAccount w1 foundAccount.PrimaryTransactionAccount.ID
                foundAccount.PrimaryTransactionAccount.Institution.ID s today).2,
              [.findAccount userID foundAccount.PrimaryTransactionAccount.Name (.ok account),
               .update foundAccount.PrimaryTransactionAccount.ID
                foundAccount.PrimaryTransactionAccount.Institution.ID s today
                (ps.UpdateTransactionAccount w1 foundAccount.PrimaryTransactionAccount.ID
                  foundAccount.PrimaryTransactionAccount.Institution.ID s today).1]) := by
    intro hlt
    simp [reconcileBalance, hfind, hparse, hlt]
  have hno : account.CurrentBalance.lt s = false →
        reconcileBalance std ps userID acc foundAccount today w
          = (w1, [.findAccount userID foundAccount.PrimaryTransactionAccount.Name
              (.ok account)]) := by
    intro hlt
    simp [reconcileBalance, hfind, hparse, hlt]
  have hrec : updateCalls (reconcileBalance std (recordingAccounts ps) userID acc foundAccount
        today (w, [])).1.2
      = (if account.CurrentBalance.lt s then
          [(foundAccount.PrimaryTransactionAccount.ID,
            foundAccount.PrimaryTransactionAccount.Institution.ID, s, today)]
        else []) := by
    by_cases hlt : account.CurrentBalance.lt s = true
    · simp [reconcileBalance, recordingAccounts, hfind, hparse, hlt, updateCalls]
    · simp [reconcileBalance, recordingAccounts, hfind, hparse, hlt, updateCalls]
  have key : pushedBalances (reconcileBalance std ps userID acc foundAccount today w).2
        = (if account.CurrentBalance.lt s then [s] else []) := by
    by_cases hlt : account.CurrentBalance.lt s = true
    · rw [hyes hlt]; simp [hlt, pushedBalances]
    · rw [hno (by simpa using hlt)]; simp [hlt, pushedBalances]
  refine ⟨hyes, hno, Float64.not_lt_of_le s _, hrec, key, ?_, ?_, ?_⟩
  · rw [key]; by_cases hlt : account.CurrentBalance.lt s = true <;> simp [hlt]
  · intro hle
    rw [key, Float64.not_lt_of_le s _ hle]; simp
  · intro p hp
    rw [key] at hp
    by_cases hlt : account.CurrentBalance.lt s = true
    · simp [hlt] at hp; rw [hp]; exact hlt
    · simp [hlt] at hp

/-- C5, as amended: when the account lookup succeeds, no institution and no account
is created; when it returns not-found and the institution lookup succeeds, no
`CreateInstitution` call and exactly one `CreateAccount` call is issued, under
the found institution; when both return not-found, exactly one
`CreateInstitution` call is issued, and when it succeeds exactly one
`CreateAccount` call follows, under the newly created institution; when it
fails the step panics and no `CreateAccount` call is issued. -/
theorem resolve_creates {σ : Type} (std : Stdlib) (ps : AccountClient σ) (userID : Int)
    (acc : FrolloAccount) (w : σ) :
    (∀ a w1, ps.FindAccountByName w userID acc.AccountName = (.ok a, w1) →
        (resolveAccount std ps userID acc w).outcome = .value a
        ∧ institutionCreates (resolveAccount std ps userID acc w).trace = []
        ∧ accountCreates (resolveAccount std ps userID acc w).trace = [])
    ∧ (∀ w1 inst w2,
        ps.FindAccountByName w userID acc.AccountName = (.err .ErrNotFound, w1) →
        ps.FindInstitutionByName w1 userID acc.Provider.Name = (.ok inst, w2) →
        institutionCreates (resolveAccount std ps userID acc w).trace = []
        ∧ accountCreates (resolveAccount std ps userID acc w).trace
          = [.createAccount userID inst.ID acc.AccountName
              (std.ToLower acc.PrimaryBalance.Currency) AccountTypeBank
              (ps.CreateAccount w2 userID inst.ID acc.AccountName
                (std.ToLower acc.PrimaryBalance.Currency) AccountTypeBank).1])
    ∧ (∀ w1 w2 inst w3,
        ps.FindAccountByName w userID acc.AccountName = (.err .ErrNotFound, w1) →
        ps.FindInstitutionByName w1 userID acc.Provider.Name = (.err .ErrNotFound, w2) →
        ps.CreateInstitution w2 userID acc.Provider.Name
          (std.ToLower acc.PrimaryBalance.Currency) = (.ok inst, w3) →
        institutionCreates (resolveAccount std ps userID acc w).trace
          = [.createInstitution userID acc.Provider.Name
              (std.ToLower acc.PrimaryBalance.Currency) (.ok inst)]
        ∧ accountCreates (resolveAccount std ps userID acc w).trace
          = [.createAccount userID inst.ID acc.AccountName
              (std.ToLower acc.PrimaryBalance.Currency) AccountTypeBank
              (ps.CreateAccount w3 userID inst.ID acc.AccountName
                (std.ToLower acc.PrimaryBalance.Currency) AccountTypeBank).1])
    ∧ (∀ w1 w2 e w3,
        ps.FindAccountByName w userID acc.AccountName = (.err .ErrNotFound, w1) →
        ps.FindInstitutionByName w1 userID acc.Provider.Name = (.err .ErrNotFound, w2) →
        ps.CreateInstitution w2 userID acc.Provider.Name
          (std.ToLower acc.PrimaryBalance.Currency) = (.err e, w3) →
        (resolveAccount std ps userID acc w).outcome = .panicked
        ∧ institutionCreates (resolveAccount std ps userID acc w).trace
          = [.createInstitution userID acc.Provider.Name
              (std.ToLower acc.PrimaryBalance.Currency) (.err e)]
        ∧ accountCreates (resolveAccount std ps userID acc w).trace = []) := by
  refine ⟨?_, ?_, ?_, ?_⟩
  · intro a w1 h
    simp [resolveAccount, h, institutionCreates, accountCreates]
  · intro w1 inst w2 h1 h2
    unfold resolveAccount
    simp only [h1, h2]
    rcases hc : ps.CreateAccount w2 userID inst.ID acc.AccountName
      (std.ToLower acc.PrimaryBalance.Currency) AccountTypeBank with ⟨r, w3⟩
    cases r <;> simp [institutionCreates, accountCreates]
  · intro w1 w2 inst w3 h1 h2 h3
    unfold resolveAccount
    simp only [h1, h2, h3]
    rcases hc : ps.CreateAccount w3 userID inst.ID acc.AccountName
      (std.ToLower acc.PrimaryBalance.Currency) AccountTypeBank with ⟨r, w4⟩
    cases r <;> simp [institutionCreates, accountCreates]
  · intro w1 w2 e w3 h1 h2 h3
    unfold resolveAccount
    simp [h1, h2, h3, institutionCreates, accountCreates]

/-- C5 fails as stated: both lookups return not-found and the `CreateInstitution`
call fails; the step panics and no account is created. -/
theorem resolve_failed_institution_no_account :
    ((fixedClient (.err .ErrNotFound) (.err .ErrNotFound) (.err (.other "unavailable"))
        (.ok (everydayAccount 0)) (.err (.other "unused"))).FindAccountByName () 1
        everyday.AccountName).1 = .err .ErrNotFound
    ∧ ((fixedClient (.err .ErrNotFound) (.err .ErrNotFound) (.err (.other "unavailable"))
        (.ok (everydayAccount 0)) (.err (.other "unused"))).FindInstitutionByName () 1
        everyday.Provider.Name).1 = .err .ErrNotFound
    ∧ (accountCreates (resolveAccount exampleStd
        (fixedClient (.err .ErrNotFound) (.err .ErrNotFound) (.err (.other "unavailable"))
          (.ok (everydayAccount 0)) (.err (.other "unused"))) 1 everyday ()).trace).length = 0
    ∧ (resolveAccount exampleStd
        (fixedClient (.err .ErrNotFound) (.err .ErrNotFound) (.err (.other "unavailable"))
          (.ok (everydayAccount 0)) (.err (.other "unused"))) 1 everyday ()).outcome
        = .panicked := by
  decide

theorem loopBody_scripted_add_results (std : Stdlib)
    (searchResults : Nat → Result (List Transaction))
    (addResults1 addResults2 : Nat → Result Transaction) (accountID : Int)
    (c : Nat) (w : Nat × Nat) (tx : FrolloTransaction) :
    (loopBody std (scripted searchResults addResults1) accountID c w tx).flow
        = (loopBody std (scripted searchResults addResults2) accountID c w tx).flow
      ∧ (loopBody std (scripted searchResults addResults1) accountID c w tx).consecutiveAlreadyProcessed
        = (loopBody std (scripted searchResults addResults2) accountID c w tx).consecutiveAlreadyProcessed
      ∧ (loopBody std (scripted searchResults addResults1) accountID c w tx).world
        = (loopBody std (scripted searchResults addResults2) accountID c w tx).world
      ∧ (loopBody std (scripted searchResults addResults1) accountID c w tx).trace.map Event.attempt
        = (loopBody std (scripted searchResults addResults2) accountID c w tx).trace.map
            Event.attempt := by
  unfold loopBody
  by_cases hc : c > 10
  · simp [hc]
  · simp only [hc, if_false]
    cases hd : std.timeParse tx.TransactionDate with
    | none => simp
    | some d =>
      simp only [scripted]
      cases hs : searchResults w.1 with
      | err e => simp
      | ok l =>
        by_cases hl : l.length > 0
        · simp [hl]
        · simp only [hl, if_false]
          cases hp : std.ParseFloat tx.Amount.Amount with
          | none => simp
          | some a => simp [Event.attempt]

theorem importerLoop_scripted_add_results (std : Stdlib)
    (searchResults : Nat → Result (List Transaction))
    (addResults1 addResults2 : Nat → Result Transaction) (accountID : Int)
    (txs : List FrolloTransaction) (c : Nat) (w : Nat × Nat) :
    (importerLoop std (scripted searchResults addResults1) accountID txs c w).exit
        = (importerLoop std (scripted searchResults addResults2) accountID txs c w).exit
      ∧ (importerLoop std (scripted searchResults addResults1) accountID txs c w).trace.map
            Event.attempt
        = (importerLoop std (scripted searchResults addResults2) accountID txs c w).trace.map
            Event.attempt := by
  induction txs generalizing c w with
  | nil => simp [importerLoop]
  | cons tx rest ih =>
    have hb := loopBody_scripted_add_results std searchResults addResults1 addResults2
      accountID c w tx
    unfold importerLoop
    rcases h1 : loopBody std (scripted searchResults addResults1) accountID c w tx
      with ⟨f1, c1, w1, t1⟩
    rcases h2 : loopBody std (scripted searchResults addResults2) accountID c w tx
      with ⟨f2, c2, w2, t2⟩
    rw [h1, h2] at hb
    simp only at hb
    obtain ⟨hf, hc, hw, ht⟩ := hb
    subst hf hc hw
    cases f1
    · simp only [List.map_append, ht]
      exact ⟨(ih c1 w1).1, by rw [(ih c1 w1).2]⟩
    · exact ⟨rfl, ht⟩
    · exact ⟨rfl, ht⟩

/-- C9: in a pass of the loop that is not stopped by the threshold and whose date
parses, a failed probe makes no add and the loop goes on to the next
transaction with the counter unchanged; an add made after a not-found probe
goes on to the next transaction whatever its result; and for a fixed script of
probe results the exit of the loop and its sequence of probes and add attempts
do not depend on the results of the adds. -/
theorem failures_do_not_abort {σ : Type} (std : Stdlib) (ps : TransactionClient σ)
    (accountID : Int) (c : Nat) (w : σ) (tx : FrolloTransaction) (rest : List FrolloTransaction)
    (txDateParsed : Time) (hc : c ≤ 10)
    (hdate : std.timeParse tx.TransactionDate = some txDateParsed) :
    (∀ e w1, ps.SearchTransactionsByMemo w accountID txDateParsed tx.Reference = (.err e, w1) →
        loopBody std ps accountID c w tx
          = ⟨.next, c, w1, [.search accountID txDateParsed tx.Reference (.err e)]⟩
        ∧ (importerLoop std ps accountID (tx :: rest) c w).trace
          = .search accountID txDateParsed tx.Reference (.err e)
              :: (importerLoop std ps accountID rest c w1).trace)
    ∧ (∀ w1 amountParsed res w2,
        ps.SearchTransactionsByMemo w accountID txDateParsed tx.Reference = (.ok [], w1) →
        std.ParseFloat tx.Amount.Amount = some amountParsed →
        ps.AddTransaction w1 accountID (psTx tx amountParsed) = (res, w2) →
        loopBody std ps accountID c w tx
          = ⟨.next, 0, w2, [.search accountID txDateParsed tx.Reference (.ok []),
              .add accountID (psTx tx amountParsed) res]⟩
        ∧ (importerLoop std ps accountID (tx :: rest) c w).trace
          = .search accountID txDateParsed tx.Reference (.ok [])
              :: .add accountID (psTx tx amountParsed) res
              :: (importerLoop std ps accountID rest 0 w2).trace)
    ∧ (∀ (searchResults : Nat → Result (List Transaction))
        (addResults1 addResults2 : Nat → Result Transaction) (txs : List FrolloTransaction)
        (w0 : Nat × Nat),
        (importTransactions std (scripted searchResults addResults1) accountID txs w0).exit
          = (importTransactions std (scripted searchResults addResults2) accountID txs w0).exit
        ∧ (importTransactions std (scripted searchResults addResults1) accountID txs
              w0).trace.map Event.attempt
          = (importTransactions std (scripted searchResults addResults2) accountID txs
              w0).trace.map Event.attempt) := by
  have hc1 : ¬ c > 10 := by omega
  refine ⟨?_, ?_, ?_⟩
  · intro e w1 hs
    have hb : loopBody std ps accountID c w tx
          = ⟨.next, c, w1, [.search accountID txDateParsed tx.Reference (.err e)]⟩ := by
      simp [loopBody, hc1, hdate, hs]
    refine ⟨hb, ?_⟩
    rw [importerLoop, hb]
    rfl
  · intro w1 a res w2 hs hp ha
    have hb : loopBody std ps accountID c w tx
          = ⟨.next, 0, w2, [.search accountID txDateParsed tx.Reference (.ok []),
              .add accountID (psTx tx a) res]⟩ := by
      simp [loopBody, hc1, hdate, hs, hp, ha]
    refine ⟨hb, ?_⟩
    rw [importerLoop, hb]
    rfl
  · intro searchResults addResults1 addResults2 txs w0
    exact importerLoop_scripted_add_results std searchResults addResults1 addResults2
      accountID txs 0 w0

theorem holds_mono (std : Stdlib) (w v : List Transaction) (tx : FrolloTransaction)
    (hsub : ∀ t ∈ w, t ∈ v) (h : holds std w tx) : holds std v tx := by
  obtain ⟨t, ht, h1, h2⟩ := h
  exact ⟨t, hsub t ht, h1, h2⟩

theorem ledger_loopBody_held (std : Stdlib) (accountID : Int) (c : Nat)
    (w : List Transaction) (tx : FrolloTransaction) (hc : c ≤ 10)
    (hdate : (std.timeParse tx.TransactionDate).isSome = true) (hh : holds std w tx) :
    ∃ t, loopBody std (ledger std) accountID c w tx = ⟨.next, c + 1, w, t⟩
      ∧ addedTxs t = [] := by
  obtain ⟨d, hd⟩ := Option.isSome_iff_exists.mp hdate
  obtain ⟨t, ht, h1, h2⟩ := hh
  have hc1 : ¬ c > 10 := by omega
  have hl : 0 < (List.filter (fun t => decide (std.timeParse t.Date = some d
      ∧ t.Memo = tx.Reference)) w).length := by
    apply List.length_pos_of_mem (a := t)
    simp [List.mem_filter, ht, h1, hd, h2]
  refine ⟨[.search accountID d tx.Reference (.ok (List.filter (fun t =>
    decide (std.timeParse t.Date = some d ∧ t.Memo = tx.Reference)) w))], ?_, ?_⟩
  · simp only [loopBody, hc1, if_false, hd, ledger, gt_iff_lt, hl, if_true]
  · simp [addedTxs, Event.added]

theorem ledger_loopBody_new (std : Stdlib) (accountID : Int) (c : Nat)
    (w : List Transaction) (tx : FrolloTransaction) (hc : c ≤ 10)
    (hdate : (std.timeParse tx.TransactionDate).isSome = true)
    (hamount : (std.ParseFloat tx.Amount.Amount).isSome = true) (hh : ¬ holds std w tx) :
    ∃ a t, loopBody std (ledger std) accountID c w tx = ⟨.next, 0, w ++ [psTx tx a], t⟩ := by
  obtain ⟨d, hd⟩ := Option.isSome_iff_exists.mp hdate
  obtain ⟨a, ha⟩ := Option.isSome_iff_exists.mp hamount
  have hc1 : ¬ c > 10 := by omega
  have hl : List.filter (fun t => decide (std.timeParse t.Date = some d
      ∧ t.Memo = tx.Reference)) w = [] := by
    rw [List.filter_eq_nil_iff]
    intro t ht hdec
    apply hh
    simp only [decide_eq_true_eq] at hdec
    exact ⟨t, ht, by rw [hdec.1, hd], hdec.2⟩
  refine ⟨a, [.search accountID d tx.Reference (.ok []),
    .add accountID (psTx tx a) (.ok (psTx tx a))], ?_⟩
  simp only [loopBody, hc1, if_false, hd, ledger, hl, List.length_nil, gt_iff_lt,
    lt_self_iff_false, ha]
  rfl

theorem ledger_first_run (std : Stdlib) (accountID : Int) (txs : List FrolloTransaction)
    (c : Nat) (w : List Transaction)
    (hdates : ∀ tx ∈ txs, (std.timeParse tx.TransactionDate).isSome = true)
    (hamounts : ∀ tx ∈ txs, (std.ParseFloat tx.Amount.Amount).isSome = true) :
    (importerLoop std (ledger std) accountID txs c w).exit ≠ .panicked
      ∧ (∀ t ∈ w, t ∈ (importerLoop std (ledger std) accountID txs c w).world)
      ∧ ∃ P R, txs = P ++ R
        ∧ (∀ x ∈ P, holds std (importerLoop std (ledger std) accountID txs c w).world x)
        ∧ (R = [] ∨ 10 < c + P.length) := by
  induction txs generalizing c w with
  | nil => exact ⟨by simp [importerLoop], by simp [importerLoop], [], [], rfl, by simp, Or.inl rfl⟩
  | cons tx rest ih =>
    have hd := hdates tx (List.mem_cons_self _ _)
    have ha := hamounts tx (List.mem_cons_self _ _)
    have ih1 := fun c1 w1 => ih c1 w1 (fun t ht => hdates t (List.mem_cons_of_mem _ ht))
      (fun t ht => hamounts t (List.mem_cons_of_mem _ ht))
    by_cases hc : c > 10
    · refine ⟨by simp [importerLoop, loopBody, hc], by simp [importerLoop, loopBody, hc],
        [], tx :: rest, rfl, by simp, Or.inr (by simpa using hc)⟩
    · by_cases hh : holds std w tx
      · obtain ⟨t, hb, _⟩ := ledger_loopBody_held std accountID c w tx (by omega) hd hh
        obtain ⟨h1, h2, P, R, h3, h4, h5⟩ := ih1 (c + 1) w
        unfold importerLoop
        rw [hb]
        refine ⟨h1, h2, tx :: P, R, by simp [h3], ?_, ?_⟩
        · intro x hx
          rcases List.mem_cons.mp hx with rfl | hx
          · exact holds_mono std w _ _ h2 hh
          · exact h4 x hx
        · rcases h5 with h5 | h5
          · exact Or.inl h5
          · right; simp only [List.length_cons]; omega
      · obtain ⟨a, t, hb⟩ := ledger_loopBody_new std accountID c w tx (by omega) hd ha hh
        obtain ⟨h1, h2, P, R, h3, h4, h5⟩ := ih1 0 (w ++ [psTx tx a])
        unfold importerLoop
        rw [hb]
        refine ⟨h1, fun t ht => h2 t (List.mem_append_left _ ht), tx :: P, R, by simp [h3],
          ?_, ?_⟩
        · intro x hx
          rcases List.mem_cons.mp hx with rfl | hx
          · apply holds_mono std (w ++ [psTx x a]) _ _ h2
            exact ⟨psTx x a, by simp, rfl, rfl⟩
          · exact h4 x hx
        · rcases h5 with h5 | h5
          · exact Or.inl h5
          · right; simp only [List.length_cons]; omega

theorem ledger_second_run (std : Stdlib) (accountID : Int) (P R : List FrolloTransaction)
    (c : Nat) (w : List Transaction)
    (hdates : ∀ tx ∈ P, (std.timeParse tx.TransactionDate).isSome = true)
    (hheld : ∀ x ∈ P, holds std w x) (hstop : R = [] ∨ 10 < c + P.length) :
    (importerLoop std (ledger std) accountID (P ++ R) c w).exit ≠ .panicked
      ∧ (importerLoop std (ledger std) accountID (P ++ R) c w).world = w
      ∧ addedTxs (importerLoop std (ledger std) accountID (P ++ R) c w).trace = [] := by
  induction P generalizing c with
  | nil =>
    rcases hstop with h | h
    · subst h; simp [importerLoop, addedTxs]
    · have hc : c > 10 := by simpa using h
      cases R with
      | nil => simp [importerLoop, addedTxs]
      | cons x R => simp [importerLoop, loopBody, hc, addedTxs]
  | cons tx rest ih =>
    by_cases hc : c > 10
    · simp [importerLoop, loopBody, hc, addedTxs]
    · obtain ⟨t, hb, ht⟩ := ledger_loopBody_held std accountID c w tx (by omega)
        (hdates tx (List.mem_cons_self _ _)) (hheld tx (List.mem_cons_self _ _))
      have h := ih (c + 1) (fun t ht => hdates t (List.mem_cons_of_mem _ ht))
        (fun t ht => hheld t (List.mem_cons_of_mem _ ht))
        (by rcases hstop with h | h
            · exact Or.inl h
            · right; simp only [List.length_cons] at h; omega)
      simp only [List.cons_append, importerLoop]
      rw [hb]
      refine ⟨h.1, h.2.1, ?_⟩
      simp only [addedTxs, List.filterMap_append] at ht h ⊢
      rw [ht]
      exact h.2.2

/-- C3: over a destination that holds transactions by date and memo, where the
probe is exact membership and an add stores the transaction, running the
importer loop and then running it again on the same list (dates and amounts
parseable) adds nothing in the second run: neither run panics, the destination
after the second run equals the one after the first, and the second run issues
no `AddTransaction` call.  The first run may have stopped at the threshold. -/
theorem rerun_adds_nothing (std : Stdlib) (accountID : Int) (allTxs : List FrolloTransaction)
    (w : List Transaction)
    (hdates : ∀ tx ∈ allTxs, (std.timeParse tx.TransactionDate).isSome = true)
    (hamounts : ∀ tx ∈ allTxs, (std.ParseFloat tx.Amount.Amount).isSome = true) :
    (importTransactions std (ledger std) accountID allTxs w).exit ≠ .panicked
      ∧ (importTransactions std (ledger std) accountID allTxs
          (importTransactions std (ledger std) accountID allTxs w).world).exit ≠ .panicked
      ∧ (importTransactions std (ledger std) accountID allTxs
          (importTransactions std (ledger std) accountID allTxs w).world).world
        = (importTransactions std (ledger std) accountID allTxs w).world
      ∧ addedTxs (importTransactions std (ledger std) accountID allTxs
          (importTransactions std (ledger std) accountID allTxs w).world).trace = [] := by
  unfold importTransactions
  obtain ⟨h1, _, P, R, h3, h4, h5⟩ := ledger_first_run std accountID allTxs 0 w hdates hamounts
  refine ⟨h1, ?_⟩
  have hP : ∀ tx ∈ P, (std.timeParse tx.TransactionDate).isSome = true := by
    intro tx ht
    exact hdates tx (by rw [h3]; exact List.mem_append_left _ ht)
  have h := ledger_second_run std accountID P R 0
    (importerLoop std (ledger std) accountID allTxs 0 w).world hP h4 h5
  rw [← h3] at h
  exact h

theorem windowEnd_shift (now : Time) (k : Nat) :
    windowEnd (now.AddDate 0 (-12)) k = windowEnd now (k + 1) := by
  induction k with
  | zero => rfl
  | succ k ih => simp only [windowEnd] at ih ⊢; rw [ih]

theorem window_shift (now : Time) (k : Nat) :
    window (now.AddDate 0 (-12)) k = window now (k + 1) := by
  simp only [window, windowEnd_shift]

theorem fetchLoop_first_empty (source : Time → Time → List FrolloTransaction) (m : Nat) :
    ∀ (fuel : Nat) (fromDate : Time) (allTxs : List FrolloTransaction),
    (∀ k, k < m → source (window fromDate k).1 (window fromDate k).2 ≠ []) →
    source (window fromDate m).1 (window fromDate m).2 = [] →
    m < fuel →
    fetchLoop (fun a b => .ok (source a b)) fuel fromDate allTxs
      = some { exit := .done
               allTxs := allTxs ++ (List.range m).flatMap fun k =>
                 source (window fromDate k).1 (window fromDate k).2
               windows := (List.range (m + 1)).map (window fromDate) } := by
  induction m with
  | zero =>
    intro fuel fromDate allTxs _ hempty hfuel
    obtain ⟨f, rfl⟩ : ∃ f, fuel = f + 1 := ⟨fuel - 1, by omega⟩
    simp only [window, windowEnd] at hempty
    simp [fetchLoop, hempty, window, windowEnd, List.range_succ]
  | succ m ih =>
    intro fuel fromDate allTxs hne hempty hfuel
    obtain ⟨f, rfl⟩ : ∃ f, fuel = f + 1 := ⟨fuel - 1, by omega⟩
    have h0 := hne 0 (by omega)
    simp only [window, windowEnd] at h0
    have hlen : ¬ (source (fromDate.AddDate 0 (-12)) fromDate).length = 0 := by
      simpa using h0
    have hrec := ih f (fromDate.AddDate 0 (-12))
      (allTxs ++ source (fromDate.AddDate 0 (-12)) fromDate)
      (fun k hk => by rw [window_shift]; exact hne (k + 1) (by omega))
      (by rw [window_shift]; exact hempty) (by omega)
    simp only [window_shift] at hrec
    have e1 : (List.range (m + 1)).flatMap (fun k =>
          source (window fromDate k).1 (window fromDate k).2)
        = source (fromDate.AddDate 0 (-12)) fromDate
          ++ (List.range m).flatMap (fun k =>
            source (window fromDate (k + 1)).1 (window fromDate (k + 1)).2) := by
      rw [List.range_succ_eq_map, List.flatMap_cons, List.flatMap_map]
      rfl
    have e2 : (List.range (m + 1 + 1)).map (window fromDate)
        = (fromDate.AddDate 0 (-12), fromDate)
          :: (List.range (m + 1)).map (fun k => window fromDate (k + 1)) := by
      rw [List.range_succ_eq_map, List.map_cons, List.map_map]
      rfl
    have e3 : window (fromDate.AddDate 0 (-12)) = fun k => window fromDate (k + 1) :=
      funext (window_shift fromDate)
    simp only [fetchLoop, hlen, if_false, hrec, e1, e2, e3, List.append_assoc]

/-- C6: for a source that returns an empty list for some window `n` the loop visits,
the window-fetch loop ends, with enough fuel, at the first empty window `m`,
after `m + 1` fetches; `allTxs` is the concatenation, in fetch order, of the
results of the windows before `m`; the first window ends at `now` and each later
window ends where the one before it starts. -/
theorem fetch_stops_at_first_empty_window (source : Time → Time → List FrolloTransaction)
    (now : Time) (n : Nat) (hempty : source (window now n).1 (window now n).2 = []) :
    ∃ m, m ≤ n
      ∧ source (window now m).1 (window now m).2 = []
      ∧ (∀ k, k < m → source (window now k).1 (window now k).2 ≠ [])
      ∧ ∀ fuel, m < fuel →
        ∃ r, fetchAll (fun a b => .ok (source a b)) fuel now = some r
          ∧ r.exit = .done
          ∧ r.windows.length = m + 1
          ∧ r.allTxs = (List.range m).flatMap (fun k =>
              source (window now k).1 (window now k).2)
          ∧ r.windows[0]?.map Prod.snd = some now
          ∧ (∀ k, k + 1 < r.windows.length →
              r.windows[k + 1]?.map Prod.snd = r.windows[k]?.map Prod.fst)
          ∧ (∀ k, k < r.windows.length → r.windows[k]? = some (window now k)) := by
  classical
  have hex : ∃ k, source (window now k).1 (window now k).2 = [] := ⟨n, hempty⟩
  refine ⟨Nat.find hex, Nat.find_min' hex hempty, Nat.find_spec hex,
    fun k hk => Nat.find_min hex hk, ?_⟩
  intro fuel hfuel
  have h := fetchLoop_first_empty source (Nat.find hex) fuel now []
    (fun k hk => Nat.find_min hex hk) (Nat.find_spec hex) hfuel
  refine ⟨_, h, rfl, by simp, by simp, ?_, ?_, ?_⟩
  · simp [List.getElem?_map, List.getElem?_range, window, windowEnd]
  · intro k hk
    simp only [List.length_map, List.length_range] at hk
    simp [List.getElem?_map, List.getElem?_range, window, windowEnd, hk,
      show k < Nat.find hex + 1 by omega]
  · intro k hk
    simp only [List.length_map, List.length_range] at hk
    simp [List.getElem?_map, List.getElem?_range, hk]

/-- C7 fails on the code: from 2025-01-15 the loop fetches the window from
2024-01-15 to 2025-01-15 and then the window from 2023-01-15 to 2024-01-15.
The second window starts 12 months, not 6 months (2023-07-15), before the
start of the first, and the two windows do not overlap. -/
theorem fetch_steps_twelve_months :
    fetchAll oneYearSource 3 ⟨2025, 1, 15, 0⟩
        = some ⟨.done, [sourceTx "2024-06-01" "r" "purchase"],
            [(⟨2024, 1, 15, 0⟩, ⟨2025, 1, 15, 0⟩), (⟨2023, 1, 15, 0⟩, ⟨2024, 1, 15, 0⟩)]⟩
      ∧ (⟨2024, 1, 15, 0⟩ : Time).AddDate 0 (-12) = ⟨2023, 1, 15, 0⟩
      ∧ (⟨2024, 1, 15, 0⟩ : Time).AddDate 0 (-6) = ⟨2023, 7, 15, 0⟩ := by
  decide

theorem precededByRun_iff (found : Nat → Bool) (i : Nat) :
    precededByRun found i = true
      ↔ ∃ j, j + 11 ≤ i ∧ ∀ k, k < 11 → found (j + k) = true := by
  simp only [precededByRun, List.any_eq_true, List.mem_range, Bool.and_eq_true,
    decide_eq_true_eq, List.all_eq_true]
  constructor
  · rintro ⟨j, _, h1, h2⟩
    exact ⟨j, h1, h2⟩
  · rintro ⟨j, h1, h2⟩
    exact ⟨j, by omega, h1, h2⟩

theorem expectedAddsFrom_cons (std : Stdlib) (found : Nat → Bool) (i : Nat)
    (tx : FrolloTransaction) (rest : List FrolloTransaction) :
    expectedAddsFrom std found i (tx :: rest)
      = (if !found i && !precededByRun found i
          then ((std.ParseFloat tx.Amount.Amount).map (psTx tx)).toList else [])
        ++ expectedAddsFrom std found (i + 1) rest := by
  unfold expectedAddsFrom
  rw [List.enumFrom_cons, List.filter_cons]
  by_cases h : (!found i && !precededByRun found i) = true
  · simp only [h, if_true, List.filterMap_cons]
    cases std.ParseFloat tx.Amount.Amount <;> simp
  · simp [h]

theorem expectedAddsFrom_blocked (std : Stdlib) (found : Nat → Bool)
    (txs : List FrolloTransaction) (i : Nat)
    (h : ∀ k, i ≤ k → precededByRun found k = true) :
    expectedAddsFrom std found i txs = [] := by
  induction txs generalizing i with
  | nil => simp [expectedAddsFrom]
  | cons tx rest ih =>
    rw [expectedAddsFrom_cons, ih (i + 1) (fun k hk => h k (by omega)), h i (le_refl _)]
    simp

theorem CounterInv.found_step {found : Nat → Bool} {i c : Nat} (h : CounterInv found i c)
    (hc : c ≤ 10) (hf : found i = true) : CounterInv found (i + 1) (c + 1) := by
  obtain ⟨h1, h2, h3, h4⟩ := h
  refine ⟨by omega, ?_, ?_, ?_⟩
  · intro k hk1 hk2
    by_cases hki : k = i
    · rw [hki]; exact hf
    · exact h2 k (by omega) (by omega)
  · intro hci
    have := h3 (by omega)
    rwa [show i + 1 - (c + 1) - 1 = i - c - 1 by omega]
  · intro hc1 j hj
    by_cases hji : j + 11 ≤ i
    · exact h4 hc j hji
    · have := h3 (by omega)
      exact ⟨i - c - 1 - j, by omega, by rwa [show j + (i - c - 1 - j) = i - c - 1 by omega]⟩

theorem CounterInv.notFound_step {found : Nat → Bool} {i c : Nat} (h : CounterInv found i c)
    (hc : c ≤ 10) (hf : found i = false) : CounterInv found (i + 1) 0 := by
  obtain ⟨h1, h2, h3, h4⟩ := h
  refine ⟨by omega, ?_, ?_, ?_⟩
  · intro k hk1 hk2; omega
  · intro _; simpa using hf
  · intro _ j hj
    by_cases hji : j + 11 ≤ i
    · exact h4 hc j hji
    · exact ⟨i - j, by omega, by rwa [show j + (i - j) = i by omega]⟩

theorem CounterInv.not_preceded {found : Nat → Bool} {i c : Nat} (h : CounterInv found i c)
    (hc : c ≤ 10) : precededByRun found i = false := by
  rw [Bool.eq_false_iff, Ne, precededByRun_iff]
  rintro ⟨j, hj, hall⟩
  obtain ⟨k, hk, hfalse⟩ := h.2.2.2 hc j hj
  rw [hall k hk] at hfalse
  exact Bool.noConfusion hfalse

theorem CounterInv.preceded {found : Nat → Bool} {i c : Nat} (h : CounterInv found i c)
    (hc : 10 < c) (k : Nat) (hk : i ≤ k) : precededByRun found k = true := by
  rw [precededByRun_iff]
  refine ⟨i - c, by have := h.1; omega, ?_⟩
  intro n hn
  exact h.2.1 _ (by omega) (by have := h.1; omega)

theorem importerLoop_scripted_adds (std : Stdlib)
    (searchResults : Nat → Result (List Transaction))
    (addResults : Nat → Result Transaction) (accountID : Int)
    (txs : List FrolloTransaction) (c i a : Nat)
    (hdates : ∀ tx ∈ txs, (std.timeParse tx.TransactionDate).isSome = true)
    (hamounts : ∀ tx ∈ txs, (std.ParseFloat tx.Amount.Amount).isSome = true)
    (hprobes : ∀ k, ∃ l, searchResults k = .ok l)
    (hinv : CounterInv (scriptFound searchResults) i c) :
    (importerLoop std (scripted searchResults addResults) accountID txs c (i, a)).exit
        ≠ .panicked
      ∧ addedTxs (importerLoop std (scripted searchResults addResults) accountID txs c
          (i, a)).trace
        = expectedAddsFrom std (scriptFound searchResults) i txs := by
  induction txs generalizing c i a with
  | nil => simp [importerLoop, addedTxs, expectedAddsFrom]
  | cons tx rest ih =>
    have ih1 := fun c1 i1 a1 => ih c1 i1 a1
      (fun t ht => hdates t (List.mem_cons_of_mem _ ht))
      (fun t ht => hamounts t (List.mem_cons_of_mem _ ht))
    by_cases hc : c > 10
    · rw [expectedAddsFrom_blocked std _ _ i (hinv.preceded hc)]
      simp [importerLoop, loopBody, hc, addedTxs]
    · obtain ⟨d, hd⟩ := Option.isSome_iff_exists.mp (hdates tx (List.mem_cons_self _ _))
      obtain ⟨amt, hamt⟩ := Option.isSome_iff_exists.mp (hamounts tx (List.mem_cons_self _ _))
      obtain ⟨l, hl⟩ := hprobes i
      have hnp := hinv.not_preceded (by omega)
      rw [expectedAddsFrom_cons, hnp]
      by_cases hlen : l.length > 0
      · have hf : scriptFound searchResults i = true := by simp [scriptFound, hl, hlen]
        have hb : loopBody std (scripted searchResults addResults) accountID c (i, a) tx
            = ⟨.next, c + 1, (i + 1, a), [.search accountID d tx.Reference (.ok l)]⟩ := by
          simp [loopBody, hc, hd, scripted, hl, hlen]
        obtain ⟨h1, h2⟩ := ih1 (c + 1) (i + 1) a (hinv.found_step (by omega) hf)
        unfold importerLoop
        rw [hb]
        refine ⟨h1, ?_⟩
        simp only [addedTxs, List.filterMap_append] at h2 ⊢
        rw [h2, hf]
        simp [Event.added]
      · have hf : scriptFound searchResults i = false := by simp [scriptFound, hl, hlen]
        have hb : loopBody std (scripted searchResults addResults) accountID c (i, a) tx
            = ⟨.next, 0, (i + 1, a + 1), [.search accountID d tx.Reference (.ok l),
                .add accountID (psTx tx amt) (addResults a)]⟩ := by
          simp [loopBody, hc, hd, scripted, hl, hlen, hamt]
        obtain ⟨h1, h2⟩ := ih1 0 (i + 1) (a + 1) (hinv.notFound_step (by omega) hf)
        unfold importerLoop
        rw [hb]
        refine ⟨h1, ?_⟩
        simp only [addedTxs, List.filterMap_append] at h2 ⊢
        rw [h2, hf, hamt]
        simp [Event.added]

theorem recording_loopBody {σ : Type} (std : Stdlib) (ps : TransactionClient σ)
    (accountID : Int) (c : Nat) (w : σ) (log : List Event) (tx : FrolloTransaction) :
    loopBody std (recording ps) accountID c (w, log) tx
      = ⟨(loopBody std ps accountID c w tx).flow,
          (loopBody std ps accountID c w tx).consecutiveAlreadyProcessed,
          ((loopBody std ps accountID c w tx).world,
            log ++ (loopBody std ps accountID c w tx).trace),
          (loopBody std ps accountID c w tx).trace⟩ := by
  unfold loopBody
  by_cases hc : c > 10
  · simp [hc]
  · simp only [hc, if_false]
    cases hd : std.timeParse tx.TransactionDate with
    | none => simp
    | some d =>
      simp only [recording]
      rcases hs : ps.SearchTransactionsByMemo w accountID d tx.Reference with ⟨res, w1⟩
      cases res with
      | err e => simp
      | ok l =>
        by_cases hl : l.length > 0
        · simp [hl]
        · simp only [hl, if_false]
          cases hp : std.ParseFloat tx.Amount.Amount with
          | none => simp
          | some a => simp

theorem recording_importerLoop {σ : Type} (std : Stdlib) (ps : TransactionClient σ)
    (accountID : Int) (txs : List FrolloTransaction) (c : Nat) (w : σ) (log : List Event) :
    importerLoop std (recording ps) accountID txs c (w, log)
      = ⟨(importerLoop std ps accountID txs c w).exit,
          (importerLoop std ps accountID txs c w).consecutiveAlreadyProcessed,
          ((importerLoop std ps accountID txs c w).world,
            log ++ (importerLoop std ps accountID txs c w).trace),
          (importerLoop std ps accountID txs c w).trace⟩ := by
  induction txs generalizing c w log with
  | nil => simp [importerLoop]
  | cons tx rest ih =>
    rw [importerLoop, recording_loopBody, importerLoop]
    rcases hp : loopBody std ps accountID c w tx with ⟨f, c1, w1, t1⟩
    cases f
    · simp only [ih, List.append_assoc]
    · rfl
    · rfl

theorem stringsContains_eq (s sub : String) :
    stringsContains s sub = decide (sub.data <:+: s.data) := by
  rw [Bool.eq_iff_iff, decide_eq_true_eq]
  exact containsChars_iff s.data sub.data

/-- The adds of one pass: none, or the one add of the transaction of the pass. -/
theorem loopBody_addCalls {σ : Type} (std : Stdlib) (ps : TransactionClient σ)
    (accountID : Int) (c : Nat) (w : σ) (tx : FrolloTransaction) :
    addCalls (loopBody std ps accountID c w tx).trace = []
      ∨ ∃ a, std.ParseFloat tx.Amount.Amount = some a
        ∧ addCalls (loopBody std ps accountID c w tx).trace = [(accountID, psTx tx a)] := by
  unfold loopBody
  by_cases hc : c > 10
  · simp [hc, addCalls]
  · simp only [hc, if_false]
    cases hd : std.timeParse tx.TransactionDate with
    | none => simp [addCalls]
    | some d =>
      rcases hs : ps.SearchTransactionsByMemo w accountID d tx.Reference with ⟨res, w1⟩
      cases res with
      | err e => simp [hs, addCalls]
      | ok l =>
        by_cases hl : l.length > 0
        · simp [hs, hl, addCalls]
        · simp only [hs, hl, if_false]
          cases hp : std.ParseFloat tx.Amount.Amount with
          | none => simp [addCalls]
          | some a => right; exact ⟨a, rfl, by simp [addCalls]⟩

theorem importerLoop_addCalls {σ : Type} (std : Stdlib) (ps : TransactionClient σ)
    (accountID : Int) (txs : List FrolloTransaction) (c : Nat) (w : σ) :
    ∃ sub : List (FrolloTransaction × Float64),
      (sub.map Prod.fst).Sublist txs
        ∧ (∀ p ∈ sub, std.ParseFloat p.1.Amount.Amount = some p.2)
        ∧ addCalls (importerLoop std ps accountID txs c w).trace
          = sub.map fun p => (accountID, psTx p.1 p.2) := by
  induction txs generalizing c w with
  | nil => exact ⟨[], by simp, by simp, by simp [importerLoop, addCalls]⟩
  | cons tx rest ih =>
    have hb := loopBody_addCalls std ps accountID c w tx
    unfold importerLoop
    rcases hp : loopBody std ps accountID c w tx with ⟨f, c1, w1, t1⟩
    rw [hp] at hb
    simp only at hb
    have hstop : ∃ sub : List (FrolloTransaction × Float64),
        (sub.map Prod.fst).Sublist (tx :: rest)
          ∧ (∀ p ∈ sub, std.ParseFloat p.1.Amount.Amount = some p.2)
          ∧ addCalls t1 = sub.map fun p => (accountID, psTx p.1 p.2) := by
      rcases hb with hb | ⟨a, ha, hb⟩
      · exact ⟨[], by simp, by simp, by simp [hb]⟩
      · exact ⟨[(tx, a)], by simp, by simp [ha], by simp [hb]⟩
    cases f
    · obtain ⟨sub, h1, h2, h3⟩ := ih c1 w1
      simp only
      rcases hb with hb | ⟨a, ha, hb⟩
      · refine ⟨sub, List.Sublist.cons _ h1, h2, ?_⟩
        simp only [addCalls, List.filterMap_append] at hb h3 ⊢
        rw [hb, h3]; rfl
      · refine ⟨(tx, a) :: sub, by simpa using h1, ?_, ?_⟩
        · intro p hp
          rcases List.mem_cons.mp hp with rfl | hp
          · exact ha
          · exact h2 p hp
        · simp only [addCalls, List.filterMap_append] at hb h3 ⊢
          rw [hb, h3]; rfl
    · exact hstop
    · exact hstop

/-- C8: in a pass of the loop whose probe finds nothing and whose amount parses,
the transaction handed to `AddTransaction`, and so received by the destination,
is built from the transaction of that pass: payee is the original description,
amount the parsed amount, date the transaction date, memo the reference, and
the transfer flag is set exactly when "transfer" is a substring of the type
tag; the pass leaves the destination as that call leaves it.  Over the whole
list, a destination that keeps the calls it receives receives exactly the calls
of the trace, and its adds are, in list order, such transactions for a sublist
of the list, all under `accountID`. -/
theorem submitted_transaction_fields {σ : Type} (std : Stdlib) (ps : TransactionClient σ)
    (accountID : Int) :
    (∀ (c : Nat) (w w1 : σ) (tx : FrolloTransaction) (txDateParsed : Time)
        (amountParsed : Float64), c ≤ 10 →
        std.timeParse tx.TransactionDate = some txDateParsed →
        ps.SearchTransactionsByMemo w accountID txDateParsed tx.Reference = (.ok [], w1) →
        std.ParseFloat tx.Amount.Amount = some amountParsed →
        loopBody std ps accountID c w tx
          = ⟨.next, 0,
              (ps.AddTransaction w1 accountID
                { Payee := tx.Description.Original, Amount := amountParsed,
                  Date := tx.TransactionDate,
                  IsTransfer := decide ("transfer".data <:+: tx.Type_.data),
                  Memo := tx.Reference }).2,
              [.search accountID txDateParsed tx.Reference (.ok []),
               .add accountID
                { Payee := tx.Description.Original, Amount := amountParsed,
                  Date := tx.TransactionDate,
                  IsTransfer := decide ("transfer".data <:+: tx.Type_.data),
                  Memo := tx.Reference }
                (ps.AddTransaction w1 accountID
                  { Payee := tx.Description.Original, Amount := amountParsed,
                    Date := tx.TransactionDate,
                    IsTransfer := decide ("transfer".data <:+: tx.Type_.data),
                    Memo := tx.Reference }).1]⟩)
    ∧ (∀ (allTxs : List FrolloTransaction) (w : σ),
        (importTransactions std (recording ps) accountID allTxs (w, [])).world.2
          = (importTransactions std (recording ps) accountID allTxs (w, [])).trace
        ∧ ∃ sub : List (FrolloTransaction × Float64),
          (sub.map Prod.fst).Sublist allTxs
            ∧ (∀ p ∈ sub, std.ParseFloat p.1.Amount.Amount = some p.2)
            ∧ addCalls (importTransactions std (recording ps) accountID allTxs
                (w, [])).world.2
              = sub.map fun p => (accountID,
                  { Payee := p.1.Description.Original, Amount := p.2,
                    Date := p.1.TransactionDate,
                    IsTransfer := decide ("transfer".data <:+: p.1.Type_.data),
                    Memo := p.1.Reference })) := by
  refine ⟨?_, ?_⟩
  · intro c w w1 tx d a hc hd hs hp
    have hc1 : ¬ c > 10 := by omega
    simp [loopBody, hc1, hd, hs, hp, psTx, stringsContains_eq]
  · intro allTxs w
    unfold importTransactions
    rw [recording_importerLoop]
    refine ⟨by simp, ?_⟩
    obtain ⟨sub, h1, h2, h3⟩ := importerLoop_addCalls std ps accountID allTxs 0 w
    refine ⟨sub, h1, h2, ?_⟩
    simp only [List.nil_append, h3, psTx, stringsContains_eq]

theorem loopBody_addCalls_account {σ : Type} (std : Stdlib) (ps : TransactionClient σ)
    (accountID : Int) (c : Nat) (w : σ) (tx : FrolloTransaction) :
    addCalls (loopBody std ps accountID c w tx).trace
      = (addedTxs (loopBody std ps accountID c w tx).trace).map fun p => (accountID, p) := by
  unfold loopBody
  by_cases hc : c > 10
  · simp [hc, addCalls, addedTxs]
  · simp only [hc, if_false]
    cases hd : std.timeParse tx.TransactionDate with
    | none => simp [addCalls, addedTxs]
    | some d =>
      rcases hs : ps.SearchTransactionsByMemo w accountID d tx.Reference with ⟨res, w1⟩
      cases res with
      | err e => simp [hs, addCalls, addedTxs, Event.added]
      | ok l =>
        by_cases hl : l.length > 0
        · simp [hs, hl, addCalls, addedTxs, Event.added]
        · simp only [hs, hl, if_false]
          cases hp : std.ParseFloat tx.Amount.Amount with
          | none => simp [addCalls, addedTxs, Event.added]
          | some a => simp [addCalls, addedTxs, Event.added]

theorem importerLoop_addCalls_account {σ : Type} (std : Stdlib) (ps : TransactionClient σ)
    (accountID : Int) (txs : List FrolloTransaction) (c : Nat) (w : σ) :
    addCalls (importerLoop std ps accountID txs c w).trace
      = (addedTxs (importerLoop std ps accountID txs c w).trace).map
          fun p => (accountID, p) := by
  induction txs generalizing c w with
  | nil => simp [importerLoop, addCalls, addedTxs]
  | cons tx rest ih =>
    have hb := loopBody_addCalls_account std ps accountID c w tx
    unfold importerLoop
    rcases hp : loopBody std ps accountID c w tx with ⟨f, c1, w1, t1⟩
    rw [hp] at hb
    simp only at hb
    cases f
    · have h := ih c1 w1
      simp only [addCalls, addedTxs, List.filterMap_append, List.map_append] at hb h ⊢
      rw [hb, h]
    · exact hb
    · exact hb

theorem loopBody_scripted_count (std : Stdlib)
    (searchResults : Nat → Result (List Transaction))
    (addResults : Nat → Result Transaction) (accountID : Int)
    (c : Nat) (w : Nat × Nat) (tx : FrolloTransaction) :
    (loopBody std (scripted searchResults addResults) accountID c w tx).world.2
      = w.2 + (addedTxs (loopBody std (scripted searchResults addResults) accountID c w
          tx).trace).length := by
  unfold loopBody
  by_cases hc : c > 10
  · simp [hc, addedTxs]
  · simp only [hc, if_false]
    cases hd : std.timeParse tx.TransactionDate with
    | none => simp [addedTxs]
    | some d =>
      simp only [scripted]
      cases hs : searchResults w.1 with
      | err e => simp [addedTxs, Event.added]
      | ok l =>
        by_cases hl : l.length > 0
        · simp [hl, addedTxs, Event.added]
        · simp only [hl, if_false]
          cases hp : std.ParseFloat tx.Amount.Amount with
          | none => simp [addedTxs, Event.added]
          | some a => simp [addedTxs, Event.added]

theorem importerLoop_scripted_count (std : Stdlib)
    (searchResults : Nat → Result (List Transaction))
    (addResults : Nat → Result Transaction) (accountID : Int)
    (txs : List FrolloTransaction) (c : Nat) (w : Nat × Nat) :
    (importerLoop std (scripted searchResults addResults) accountID txs c w).world.2
      = w.2 + (addedTxs (importerLoop std (scripted searchResults addResults) accountID txs c
          w).trace).length := by
  induction txs generalizing c w with
  | nil => simp [importerLoop, addedTxs]
  | cons tx rest ih =>
    have hb := loopBody_scripted_count std searchResults addResults accountID c w tx
    unfold importerLoop
    rcases hp : loopBody std (scripted searchResults addResults) accountID c w tx
      with ⟨f, c1, w1, t1⟩
    rw [hp] at hb
    simp only at hb
    cases f
    · have h := ih c1 w1
      simp only [addedTxs, List.filterMap_append, List.length_append] at hb h ⊢
      rw [h, hb]; omega
    · exact hb
    · exact hb

/-- C10: when all dates and amounts parse and every probe succeeds, the
`AddTransaction` calls the scripted destination receives are, in order and once
each, the transactions reported not found that are not preceded by a run of 11
consecutive found transactions, all under `accountID`; the number of adds the
destination counts is their number, the trace shows the same adds, and the loop
does not panic. -/
theorem not_found_transactions_are_submitted (std : Stdlib)
    (searchResults : Nat → Result (List Transaction))
    (addResults : Nat → Result Transaction) (accountID : Int)
    (allTxs : List FrolloTransaction)
    (hdates : ∀ tx ∈ allTxs, (std.timeParse tx.TransactionDate).isSome = true)
    (hamounts : ∀ tx ∈ allTxs, (std.ParseFloat tx.Amount.Amount).isSome = true)
    (hprobes : ∀ k, ∃ l, searchResults k = .ok l) :
    (importTransactions std (recording (scripted searchResults addResults)) accountID allTxs
        ((0, 0), [])).exit ≠ .panicked
      ∧ addCalls (importTransactions std (recording (scripted searchResults addResults))
          accountID allTxs ((0, 0), [])).world.2
        = (expectedAdds std (scriptFound searchResults) allTxs).map (fun p => (accountID, p))
      ∧ (importTransactions std (recording (scripted searchResults addResults)) accountID
          allTxs ((0, 0), [])).world.1.2
        = (expectedAdds std (scriptFound searchResults) allTxs).length
      ∧ (importTransactions std (scripted searchResults addResults) accountID allTxs
          (0, 0)).exit ≠ .panicked
      ∧ addedTxs (importTransactions std (scripted searchResults addResults) accountID allTxs
          (0, 0)).trace
        = expectedAdds std (scriptFound searchResults) allTxs := by
  have h := importerLoop_scripted_adds std searchResults addResults accountID allTxs 0 0 0
    hdates hamounts hprobes
    ⟨le_refl _, by intro k h1 h2; omega, by intro h; omega, by intro _ j hj; omega⟩
  have hcount := importerLoop_scripted_count std searchResults addResults accountID allTxs 0
    (0, 0)
  have hacc := importerLoop_addCalls_account std (scripted searchResults addResults)
    accountID allTxs 0 (0, 0)
  unfold importTransactions
  rw [recording_importerLoop]
  refine ⟨h.1, ?_, ?_, h.1, h.2⟩
  · simp only [List.nil_append]
    rw [hacc, h.2]
    rfl
  · simp only
    rw [hcount, h.2]
    simp [expectedAdds]

/-! ## The theorems at concrete inputs -/

set_option maxRecDepth 100000

/-- Witness of C1: the destination holds the eleven newest transactions and not the
twelfth; the twelfth is neither probed nor added. -/
theorem importer_stops_after_eleven_found_witness :
    (∀ e ∈ (importTransactions exampleStd (ledger exampleStd) 22 elevenTxs elevenStored).trace,
        e.isNotFound = false)
      ∧ 11 ≤ ((importTransactions exampleStd (ledger exampleStd) 22 elevenTxs
          elevenStored).trace.filter Event.isFound).length
      ∧ (ledger exampleStd).SearchTransactionsByMemo elevenStored 22 ⟨2025, 1, 1, 0⟩ "r01"
          = (.ok [], elevenStored)
      ∧ (importTransactions exampleStd (ledger exampleStd) 22 (elevenTxs ++ [olderTx])
          elevenStored).trace
        = (importTransactions exampleStd (ledger exampleStd) 22 elevenTxs elevenStored).trace
      ∧ (importTransactions exampleStd (ledger exampleStd) 22 (elevenTxs ++ [olderTx])
          elevenStored).world
        = (importTransactions exampleStd (ledger exampleStd) 22 elevenTxs elevenStored).world :=
  ⟨by decide, by decide, by decide,
    importer_stops_after_eleven_found exampleStd (ledger exampleStd) 22 elevenTxs [olderTx]
      elevenStored []
      (importTransactions exampleStd (ledger exampleStd) 22 elevenTxs elevenStored).trace
      rfl (by decide) (by decide)⟩

/-- Witness of C2: the destination holds both transactions of the list; two probes,
no add. -/
theorem all_found_no_add_witness :
    addedTxs (importTransactions exampleStd (ledger exampleStd) 22 twoTxs twoStored).trace = []
      ∧ (importTransactions exampleStd (ledger exampleStd) 22 twoTxs twoStored).trace.length
        = 2 :=
  ⟨(all_found_no_add exampleStd (ledger exampleStd) 22 twoTxs twoStored (fun w0 => w0 = twoStored)
    rfl (by
      intro w0 h0 tx htx
      subst h0
      simp only [twoTxs, List.mem_cons, List.mem_singleton, List.not_mem_nil, or_false] at htx
      rcases htx with rfl | rfl
      · exact ⟨⟨2025, 1, 12, 0⟩, _, _, by decide, rfl, by decide, rfl⟩
      · exact ⟨⟨2025, 1, 11, 0⟩, _, _, by decide, rfl, by decide, rfl⟩)).2, by decide⟩

/-- Witness of C5 as amended, for the account "Everyday": nothing exists, only the
institution exists, the account exists. -/
theorem resolve_creates_witness :
    (institutionCreates (resolveAccount exampleStd
        (fixedClient (.err .ErrNotFound) (.err .ErrNotFound) (.ok bankInstitution)
          (.ok (everydayAccount 0)) (.err (.other "unavailable"))) 1 everyday ()).trace
        = [.createInstitution 1 "Bank" "aud" (.ok bankInstitution)]
      ∧ accountCreates (resolveAccount exampleStd
        (fixedClient (.err .ErrNotFound) (.err .ErrNotFound) (.ok bankInstitution)
          (.ok (everydayAccount 0)) (.err (.other "unavailable"))) 1 everyday ()).trace
        = [.createAccount 1 11 "Everyday" "aud" "bank" (.ok (everydayAccount 0))])
      ∧ (institutionCreates (resolveAccount exampleStd
        (fixedClient (.err .ErrNotFound) (.ok bankInstitution) (.ok bankInstitution)
          (.ok (everydayAccount 0)) (.err (.other "unavailable"))) 1 everyday ()).trace = []
      ∧ accountCreates (resolveAccount exampleStd
        (fixedClient (.err .ErrNotFound) (.ok bankInstitution) (.ok bankInstitution)
          (.ok (everydayAccount 0)) (.err (.other "unavailable"))) 1 everyday ()).trace
        = [.createAccount 1 11 "Everyday" "aud" "bank" (.ok (everydayAccount 0))])
      ∧ ((resolveAccount exampleStd
        (fixedClient (.ok (everydayAccount 0)) (.ok bankInstitution) (.ok bankInstitution)
          (.ok (everydayAccount 0)) (.err (.other "unavailable"))) 1 everyday ()).outcome
          = .value (everydayAccount 0)
      ∧ institutionCreates (resolveAccount exampleStd
        (fixedClient (.ok (everydayAccount 0)) (.ok bankInstitution) (.ok bankInstitution)
          (.ok (everydayAccount 0)) (.err (.other "unavailable"))) 1 everyday ()).trace = []
      ∧ accountCreates (resolveAccount exampleStd
        (fixedClient (.ok (everydayAccount 0)) (.ok bankInstitution) (.ok bankInstitution)
          (.ok (everydayAccount 0)) (.err (.other "unavailable"))) 1 everyday ()).trace = []) :=
  ⟨(resolve_creates exampleStd
      (fixedClient (.err .ErrNotFound) (.err .ErrNotFound) (.ok bankInstitution)
        (.ok (everydayAccount 0)) (.err (.other "unavailable"))) 1 everyday ()).2.2.1
      () () bankInstitution () rfl rfl rfl,
   (resolve_creates exampleStd
      (fixedClient (.err .ErrNotFound) (.ok bankInstitution) (.ok bankInstitution)
        (.ok (everydayAccount 0)) (.err (.other "unavailable"))) 1 everyday ()).2.1
      () bankInstitution () rfl rfl,
   (resolve_creates exampleStd
      (fixedClient (.ok (everydayAccount 0)) (.ok bankInstitution) (.ok bankInstitution)
        (.ok (everydayAccount 0)) (.err (.other "unavailable"))) 1 everyday ()).1
      (everydayAccount 0) () rfl⟩

/-- Witness of C6: a source with transactions in the first window only; two fetches. -/
theorem fetch_stops_at_first_empty_window_witness :
    oneYearList (window ⟨2025, 1, 15, 0⟩ 1).1 (window ⟨2025, 1, 15, 0⟩ 1).2 = []
      ∧ fetchAll (fun a b => .ok (oneYearList a b)) 2 ⟨2025, 1, 15, 0⟩
        = some ⟨.done, [sourceTx "2024-06-01" "r" "purchase"],
            [(⟨2024, 1, 15, 0⟩, ⟨2025, 1, 15, 0⟩), (⟨2023, 1, 15, 0⟩, ⟨2024, 1, 15, 0⟩)]⟩
      ∧ ∃ m, m ≤ 1
        ∧ oneYearList (window ⟨2025, 1, 15, 0⟩ m).1 (window ⟨2025, 1, 15, 0⟩ m).2 = []
        ∧ ∀ fuel, m < fuel →
          ∃ r, fetchAll (fun a b => .ok (oneYearList a b)) fuel ⟨2025, 1, 15, 0⟩ = some r
            ∧ r.exit = .done ∧ r.windows.length = m + 1 := by
  refine ⟨by decide, by decide, ?_⟩
  obtain ⟨m, h1, h2, _, h4⟩ :=
    fetch_stops_at_first_empty_window oneYearList ⟨2025, 1, 15, 0⟩ 1 (by decide)
  refine ⟨m, h1, h2, fun fuel hfuel => ?_⟩
  obtain ⟨r, hr, hd, hl, _⟩ := h4 fuel hfuel
  exact ⟨r, hr, hd, hl⟩

/-- Witness of C9: the first probe fails, the second transaction is still probed and
its add, which fails, ends the list normally. -/
theorem failures_do_not_abort_witness :
    (importTransactions exampleStd
        (scripted firstProbeFails fun _ => .err (.other "refused")) 22 twoTxs (0, 0)).trace
      = [.search 22 ⟨2025, 1, 12, 0⟩ "r12" (.err (.other "timeout")),
         .search 22 ⟨2025, 1, 11, 0⟩ "r11" (.ok []),
         .add 22 (psTx (sourceTx "2025-01-11" "r11" "purchase") (.fin 5))
           (.err (.other "refused"))]
      ∧ (importTransactions exampleStd
          (scripted firstProbeFails fun _ => .err (.other "refused")) 22 twoTxs (0, 0)).exit
        = .finished :=
  ⟨((failures_do_not_abort exampleStd
      (scripted firstProbeFails fun _ => .err (.other "refused")) 22 0 (0, 0)
      (sourceTx "2025-01-12" "r12" "internal_transfer")
      [sourceTx "2025-01-11" "r11" "purchase"] ⟨2025, 1, 12, 0⟩ (by decide) (by decide)).1
      (.other "timeout") (1, 0) rfl).2.trans (by decide), by decide⟩

/-- Witness of C3: the first run stops at the threshold without importing the
twelfth transaction, and the second run changes nothing. -/
theorem rerun_adds_nothing_witness :
    (∀ tx ∈ elevenTxs ++ [olderTx], (exampleStd.timeParse tx.TransactionDate).isSome = true)
      ∧ (∀ tx ∈ elevenTxs ++ [olderTx],
          (exampleStd.ParseFloat tx.Amount.Amount).isSome = true)
      ∧ (importTransactions exampleStd (ledger exampleStd) 22 (elevenTxs ++ [olderTx])
          elevenStored).exit = .stopped
      ∧ (importTransactions exampleStd (ledger exampleStd) 22 (elevenTxs ++ [olderTx])
          elevenStored).world = elevenStored
      ∧ (importTransactions exampleStd (ledger exampleStd) 22 (elevenTxs ++ [olderTx])
          (importTransactions exampleStd (ledger exampleStd) 22 (elevenTxs ++ [olderTx])
            elevenStored).world).world
        = (importTransactions exampleStd (ledger exampleStd) 22 (elevenTxs ++ [olderTx])
            elevenStored).world :=
  ⟨by decide, by decide, by decide, by decide,
    (rerun_adds_nothing exampleStd 22 (elevenTxs ++ [olderTx]) elevenStored (by decide)
      (by decide)).2.2.1⟩

/-- Witness of C4: with source balance 500, a destination at balance 100 receives
one update call, for transaction account 22 of institution 11 with balance 500;
a destination at balance 500 receives none. -/
theorem reconcile_pushes_iff_lt_witness :
    updateCalls (reconcileBalance exampleStd
        (recordingAccounts (fixedClient (.ok (everydayAccount 100)) (.ok bankInstitution)
          (.ok bankInstitution) (.ok (everydayAccount 100)) (.err (.other "unavailable"))))
        1 everyday (everydayAccount 100) "2025-01-15" ((), [])).1.2
        = [(22, 11, Float64.fin 500, "2025-01-15")]
      ∧ updateCalls (reconcileBalance exampleStd
        (recordingAccounts (fixedClient (.ok (everydayAccount 500)) (.ok bankInstitution)
          (.ok bankInstitution) (.ok (everydayAccount 500)) (.err (.other "unavailable"))))
        1 everyday (everydayAccount 500) "2025-01-15" ((), [])).1.2 = []
      ∧ reconcileBalance exampleStd
        (recordingAccounts (fixedClient (.ok (everydayAccount 100)) (.ok bankInstitution)
          (.ok bankInstitution) (.ok (everydayAccount 100)) (.err (.other "unavailable"))))
        1 everyday (everydayAccount 100) "2025-01-15" ((), [])
        = (((), [.findAccount 1 "Everyday" (.ok (everydayAccount 100)),
              .update 22 11 (.fin 500) "2025-01-15" (.err (.other "unavailable"))]),
            [.findAccount 1 "Everyday" (.ok (everydayAccount 100)),
              .update 22 11 (.fin 500) "2025-01-15" (.err (.other "unavailable"))])
      ∧ reconcileBalance exampleStd
        (recordingAccounts (fixedClient (.ok (everydayAccount 500)) (.ok bankInstitution)
          (.ok bankInstitution) (.ok (everydayAccount 500)) (.err (.other "unavailable"))))
        1 everyday (everydayAccount 500) "2025-01-15" ((), [])
        = (((), [.findAccount 1 "Everyday" (.ok (everydayAccount 500))]),
            [.findAccount 1 "Everyday" (.ok (everydayAccount 500))]) :=
  ⟨(reconcile_pushes_iff_lt exampleStd
      (fixedClient (.ok (everydayAccount 100)) (.ok bankInstitution) (.ok bankInstitution)
        (.ok (everydayAccount 100)) (.err (.other "unavailable")))
      1 everyday (everydayAccount 100) "2025-01-15" () () (everydayAccount 100) (.fin 500)
      rfl (by decide)).2.2.2.1.trans (by decide),
   (reconcile_pushes_iff_lt exampleStd
      (fixedClient (.ok (everydayAccount 500)) (.ok bankInstitution) (.ok bankInstitution)
        (.ok (everydayAccount 500)) (.err (.other "unavailable")))
      1 everyday (everydayAccount 500) "2025-01-15" () () (everydayAccount 500) (.fin 500)
      rfl (by decide)).2.2.2.1.trans (by decide),
   by decide, by decide⟩

/-- Witness of C8: the destination receives the transaction of type
"internal_transfer" with transfer flag true and the one of type "purchase" with
false. -/
theorem submitted_transaction_fields_witness :
    addCalls (importTransactions exampleStd (recording (ledger exampleStd)) 22 twoTxs
        ([], [])).world.2
        = [(22, ⟨"shop", .fin 5, "2025-01-12", true, "r12"⟩),
           (22, ⟨"shop", .fin 5, "2025-01-11", false, "r11"⟩)]
      ∧ (importTransactions exampleStd (recording (ledger exampleStd)) 22 twoTxs
        ([], [])).world.1
        = [⟨"shop", .fin 5, "2025-01-12", true, "r12"⟩,
           ⟨"shop", .fin 5, "2025-01-11", false, "r11"⟩]
      ∧ decide ("transfer".data <:+: "internal_transfer".data) = true
      ∧ decide ("transfer".data <:+: "purchase".data) = false
      ∧ loopBody exampleStd (ledger exampleStd) 22 0 []
          (sourceTx "2025-01-12" "r12" "internal_transfer")
        = ⟨.next, 0, [⟨"shop", .fin 5, "2025-01-12", true, "r12"⟩],
            [.search 22 ⟨2025, 1, 12, 0⟩ "r12" (.ok []),
             .add 22 ⟨"shop", .fin 5, "2025-01-12", true, "r12"⟩
               (.ok ⟨"shop", .fin 5, "2025-01-12", true, "r12"⟩)]⟩
      ∧ (importTransactions exampleStd (recording (ledger exampleStd)) 22 twoTxs
          ([], [])).world.2
        = (importTransactions exampleStd (recording (ledger exampleStd)) 22 twoTxs
          ([], [])).trace :=
  ⟨by decide, by decide, by decide, by decide,
    (submitted_transaction_fields exampleStd (ledger exampleStd) 22).1 0 [] []
      (sourceTx "2025-01-12" "r12" "internal_transfer") ⟨2025, 1, 12, 0⟩ (.fin 5)
      (by decide) (by decide) rfl (by decide),
    ((submitted_transaction_fields exampleStd (ledger exampleStd) 22).2 twoTxs []).1⟩

/-- Witness of C10: ten found transactions followed by a not-found one; the
destination receives one add, for the eleventh. -/
theorem not_found_transactions_are_submitted_witness :
    (∀ k, ∃ l, tenFound k = .ok l)
      ∧ expectedAdds exampleStd (scriptFound tenFound) elevenTxs
        = [psTx (sourceTx "2025-01-02" "r02" "purchase") (.fin 5)]
      ∧ addCalls (importTransactions exampleStd
          (recording (scripted tenFound fun _ => .err (.other "refused"))) 22 elevenTxs
          ((0, 0), [])).world.2
        = [(22, ⟨"shop", .fin 5, "2025-01-02", false, "r02"⟩)]
      ∧ (importTransactions exampleStd
          (recording (scripted tenFound fun _ => .err (.other "refused"))) 22 elevenTxs
          ((0, 0), [])).world.1 = (11, 1) :=
  ⟨fun k => by by_cases h : k < 10 <;> simp [tenFound, h], by decide,
    (not_found_transactions_are_submitted exampleStd tenFound
      (fun _ => .err (.other "refused")) 22 elevenTxs (by decide) (by decide)
      (fun k => by by_cases h : k < 10 <;> simp [tenFound, h])).2.1.trans (by decide),
    by decide⟩

end PocketsmithFrollo
